import Mathlib

/-!
# Verification of the go-virtualbox codec layer

A shallow embedding of the parsing and serialization core of the
`go-virtualbox` library (command-argument builder, DHCP/NAT listing
parsers, UART codec, storage-controller codec, flag bitmask), together
with proofs and refutations of the frozen specification claims.

Go strings are modelled as lists of characters (`GoStr`); Go maps that
are only read through indexing are modelled as association lists; Go
functions that can fail are modelled with `Except`/`Option`, and code
paths that can panic (slice out of range) with a dedicated `GoRes`
result type carrying a `panicked` outcome.
-/

set_option maxRecDepth 4000

/-- A Go string, modelled as its list of characters. -/
abbrev GoStr := List Char

/-- Coerce a Lean string literal to the `GoStr` model. -/
def gs (s : String) : GoStr := s.data

/-- Result of running a Go computation that may return an error or panic.
`panicked` models a Go runtime panic (e.g. slice bounds out of range). -/
inductive GoRes (ε : Type) (α : Type) where
  | ok (a : α)
  | err (e : ε)
  | panicked
deriving Repr, DecidableEq

/-- Sequencing of Go computations: errors and panics abort. -/
def GoRes.bind {ε α β : Type} : GoRes ε α → (α → GoRes ε β) → GoRes ε β
  | .ok a, f => f a
  | .err e, _ => .err e
  | .panicked, _ => .panicked

@[simp] theorem GoRes.bind_ok {ε α β : Type} (a : α) (f : α → GoRes ε β) :
    GoRes.bind (.ok a) f = f a := rfl

@[simp] theorem GoRes.bind_err {ε α β : Type} (e : ε) (f : α → GoRes ε β) :
    GoRes.bind (.err e) f = .err e := rfl

@[simp] theorem GoRes.bind_panicked {ε α β : Type} (f : α → GoRes ε β) :
    GoRes.bind (ε := ε) .panicked f = .panicked := rfl

/-! ## Go `strings.Split` with a one-character separator -/

/-- `strings.Split(s, sep)` for a single-character separator: cut `s` at every
occurrence of `sep`.  Always returns at least one (possibly empty) part. -/
def splitCh (sep : Char) : GoStr → List GoStr
  | [] => [[]]
  | c :: cs =>
    match splitCh sep cs with
    | [] => [[]]
    | h :: t => if c = sep then [] :: h :: t else (c :: h) :: t

theorem splitCh_ne_nil (sep : Char) (s : GoStr) : splitCh sep s ≠ [] := by
  cases s with
  | nil => simp [splitCh]
  | cons c cs =>
    simp only [splitCh]
    cases h : splitCh sep cs with
    | nil => simp
    | cons h t => by_cases hc : c = sep <;> simp [hc]

/-- A separator-free string splits into itself alone. -/
theorem splitCh_of_not_mem (sep : Char) (s : GoStr) (h : sep ∉ s) :
    splitCh sep s = [s] := by
  induction s with
  | nil => rfl
  | cons c cs ih =>
    have hc : c ≠ sep := fun hcc => h (hcc ▸ List.mem_cons_self c cs)
    have hcs : sep ∉ cs := fun hm => h (List.mem_cons_of_mem c hm)
    simp only [splitCh, ih hcs]
    simp [hc]

/-- Splitting `a ++ sep :: b` when `a` is separator-free peels off `a`. -/
theorem splitCh_append (sep : Char) (a b : GoStr) (ha : sep ∉ a) :
    splitCh sep (a ++ sep :: b) = a :: splitCh sep b := by
  induction a with
  | nil =>
    simp only [List.nil_append, splitCh]
    cases h : splitCh sep b with
    | nil => exact absurd h (splitCh_ne_nil sep b)
    | cons hd tl => simp
  | cons c cs ih =>
    have hc : c ≠ sep := fun hcc => ha (hcc ▸ List.mem_cons_self c cs)
    have hcs : sep ∉ cs := fun hm => ha (List.mem_cons_of_mem c hm)
    rw [List.cons_append]
    simp only [splitCh]
    rw [ih hcs]
    simp [hc]

/-! ## Digits, formatting and numeric parsing -/

/-- The character for digit value `d` (lowercase hex alphabet), as produced
by Go's `%x`/`%d` formatting verbs. -/
def digitChar (d : Nat) : Char :=
  if d < 10 then Char.ofNat ('0'.toNat + d) else Char.ofNat ('a'.toNat + d - 10)

/-- Decimal digit test, as in Go's `strconv` parsing of base-10 numbers. -/
def isDecDigit (c : Char) : Bool := '0' ≤ c && c ≤ '9'

/-- Hex digit test, as in Go's `strconv` parsing of base-16 numbers. -/
def isHexDigit (c : Char) : Bool :=
  ('0' ≤ c && c ≤ '9') || ('a' ≤ c && c ≤ 'f') || ('A' ≤ c && c ≤ 'F')

/-- Numeric value of a digit character (decimal or hex). -/
def digitVal (c : Char) : Nat :=
  if '0' ≤ c && c ≤ '9' then c.toNat - '0'.toNat
  else if 'a' ≤ c && c ≤ 'f' then c.toNat - 'a'.toNat + 10
  else if 'A' ≤ c && c ≤ 'F' then c.toNat - 'A'.toNat + 10
  else 0

/-- Fuel-driven computation of base-`b` digits, least significant first
(the fuel only needs to dominate the digit count). -/
def digitsRevAux (b : Nat) : Nat → Nat → List Nat
  | _, 0 => []
  | n, fuel + 1 =>
    if n = 0 ∨ b < 2 then [] else (n % b) :: digitsRevAux b (n / b) fuel

/-- The base-`b` digit values of `n`, least significant first (empty for 0). -/
def digitsRev (b : Nat) (n : Nat) : List Nat := digitsRevAux b n n

theorem digitsRevAux_congr (b : Nat) :
    ∀ (fuel1 fuel2 n : Nat), n ≤ fuel1 → n ≤ fuel2 →
      digitsRevAux b n fuel1 = digitsRevAux b n fuel2 := by
  intro fuel1
  induction fuel1 with
  | zero =>
    intro fuel2 n h1 h2
    have hn : n = 0 := by omega
    subst hn
    cases fuel2 with
    | zero => rfl
    | succ f2 => simp [digitsRevAux]
  | succ f1 ih =>
    intro fuel2 n h1 h2
    cases fuel2 with
    | zero =>
      have hn : n = 0 := by omega
      subst hn
      simp [digitsRevAux]
    | succ f2 =>
      by_cases hc : n = 0 ∨ b < 2
      · simp [digitsRevAux, hc]
      · simp only [digitsRevAux, hc, if_false]
        have hb : 2 ≤ b := by omega
        have hn0 : n ≠ 0 := fun hn => hc (Or.inl hn)
        have hq : n / b < n := Nat.div_lt_self (Nat.pos_of_ne_zero hn0) (by omega)
        rw [ih f2 (n / b) (by omega) (by omega)]

/-- The defining recurrence of `digitsRev`. -/
theorem digitsRev_unfold (b n : Nat) :
    digitsRev b n = if n = 0 ∨ b < 2 then [] else (n % b) :: digitsRev b (n / b) := by
  rw [digitsRev]
  cases n with
  | zero => simp [digitsRevAux]
  | succ n =>
    by_cases hc : n + 1 = 0 ∨ b < 2
    · have hb : b < 2 := by
        rcases hc with h0 | hb
        · omega
        · exact hb
      simp [digitsRevAux, hb]
    · simp only [digitsRevAux, hc, if_false]
      have hn0 : n + 1 ≠ 0 := fun hn => hc (Or.inl hn)
      have hq : (n + 1) / b < n + 1 :=
        Nat.div_lt_self (Nat.pos_of_ne_zero hn0) (by omega)
      rw [digitsRev, digitsRevAux_congr b n ((n + 1) / b) ((n + 1) / b) (by omega)
        (Nat.le_refl _)]

/-- Value of a most-significant-first digit list in base `b`. -/
def digitsVal (b : Nat) (ds : List Nat) : Nat :=
  ds.foldl (fun a d => a * b + d) 0

theorem digitsVal_foldl_acc (b : Nat) (ys : List Nat) (acc : Nat) :
    ys.foldl (fun a d => a * b + d) acc = acc * b ^ ys.length + digitsVal b ys := by
  induction ys generalizing acc with
  | nil => simp [digitsVal]
  | cons y ys ih =>
    have hy : digitsVal b (y :: ys) = y * b ^ ys.length + digitsVal b ys := by
      simp only [digitsVal, List.foldl_cons]
      rw [ih (0 * b + y)]
      simp [digitsVal]
    simp only [List.foldl_cons, List.length_cons]
    rw [ih (acc * b + y), hy, pow_succ]
    ring

theorem digitsVal_append (b : Nat) (xs ys : List Nat) :
    digitsVal b (xs ++ ys) = digitsVal b xs * b ^ ys.length + digitsVal b ys := by
  simp only [digitsVal, List.foldl_append]
  rw [digitsVal_foldl_acc]
  rfl

/-- Base-`b` digits of `n`, reversed back to most-significant-first, evaluate
to `n`. -/
theorem digitsVal_digitsRev (b : Nat) (hb : 2 ≤ b) (n : Nat) :
    digitsVal b (digitsRev b n).reverse = n := by
  induction n using Nat.strong_induction_on with
  | _ n ih =>
    rw [digitsRev_unfold]
    by_cases h : n = 0 ∨ b < 2
    · rcases h with h | h
      · simp [h, digitsVal]
      · omega
    · rw [if_neg h]
      have hn : n ≠ 0 := fun hn => h (Or.inl hn)
      have hlt : n / b < n := Nat.div_lt_self (Nat.pos_of_ne_zero hn) (by omega)
      rw [List.reverse_cons, digitsVal_append, ih (n / b) hlt]
      have h1 : digitsVal b [n % b] = n % b := by simp [digitsVal]
      rw [h1]
      simp only [List.length_singleton, pow_one]
      rw [Nat.mul_comm]
      exact Nat.div_add_mod n b

theorem digitsRev_lt (b n : Nat) : ∀ d ∈ digitsRev b n, d < b := by
  induction n using Nat.strong_induction_on with
  | _ n ih =>
    rw [digitsRev_unfold]
    by_cases h : n = 0 ∨ b < 2
    · simp [h]
    · rw [if_neg h]
      intro d hd
      rcases List.mem_cons.1 hd with rfl | hd
      · exact Nat.mod_lt _ (by omega)
      · have hn : n ≠ 0 := fun hn => h (Or.inl hn)
        exact ih (n / b) (Nat.div_lt_self (Nat.pos_of_ne_zero hn) (by omega)) d hd

theorem digitVal_digitChar (d : Nat) (h : d < 16) : digitVal (digitChar d) = d := by
  interval_cases d <;> decide

theorem isHexDigit_digitChar (d : Nat) (h : d < 16) :
    isHexDigit (digitChar d) = true := by
  interval_cases d <;> decide

theorem isDecDigit_digitChar (d : Nat) (h : d < 10) :
    isDecDigit (digitChar d) = true := by
  interval_cases d <;> decide

/-- Go `%x` of a natural number: lowercase hex, `"0"` for zero. -/
def hexStr (n : Nat) : GoStr :=
  if n = 0 then ['0'] else ((digitsRev 16 n).map digitChar).reverse

/-- Go `%d` of a natural number. -/
def decStr (n : Nat) : GoStr :=
  if n = 0 then ['0'] else ((digitsRev 10 n).map digitChar).reverse

/-- Left-pad with `'0'` to width `w`: the padding of `%04x`. -/
def padZero (w : Nat) (s : GoStr) : GoStr := List.replicate (w - s.length) '0' ++ s

/-- Go `fmt.Sprintf("%04x", n)`. -/
def fmtHex04 (n : Nat) : GoStr := padZero 4 (hexStr n)

/-- Numeric value of a digit string, most significant first, base `b`. -/
def strVal (b : Nat) (s : GoStr) : Nat := s.foldl (fun a c => a * b + digitVal c) 0

theorem strVal_eq_digitsVal (b : Nat) (s : GoStr) :
    strVal b s = digitsVal b (s.map digitVal) := by
  simp [strVal, digitsVal, List.foldl_map]

/-- Go `strconv.ParseUint(s, b, 64)`-style digit-string parsing (without the
bit-size check): `none` on an empty string or any non-digit character. -/
def parseDigits (dig : Char → Bool) (b : Nat) (s : GoStr) : Option Nat :=
  if s = [] then none
  else if s.all dig then some (strVal b s) else none

/-- `strconv.ParseUint(s, 16, 64)`: hex digits, value below `2 ^ 64`. -/
def goParseHex64 (s : GoStr) : Option Nat :=
  match parseDigits isHexDigit 16 s with
  | none => none
  | some v => if v < 2 ^ 64 then some v else none

/-- `strconv.ParseUint(s, 10, 32)`: decimal digits, value below `2 ^ 32`. -/
def goParseDec32 (s : GoStr) : Option Nat :=
  match parseDigits isDecDigit 10 s with
  | none => none
  | some v => if v < 2 ^ 32 then some v else none

/-- `strconv.ParseUint(s, 10, 64)`. -/
def goParseDec64 (s : GoStr) : Option Nat :=
  match parseDigits isDecDigit 10 s with
  | none => none
  | some v => if v < 2 ^ 64 then some v else none

/-! ### Round-trip facts for the numeric codecs -/

theorem strVal_replicate_zero_append (b : Nat) (k : Nat) (s : GoStr) :
    strVal b (List.replicate k '0' ++ s) = strVal b s := by
  induction k with
  | zero => rfl
  | succ k ih =>
    simp only [List.replicate_succ, List.cons_append, strVal, List.foldl_cons]
    have h0 : (0 : Nat) * b + digitVal '0' = 0 := by simp [digitVal]
    rw [h0]
    exact ih

theorem strVal_hexStr (n : Nat) : strVal 16 (hexStr n) = n := by
  by_cases h : n = 0
  · simp [h, hexStr, strVal, digitVal]
  · simp only [hexStr, h, if_false]
    rw [strVal_eq_digitsVal, ← List.map_reverse, List.map_map]
    have hmap : ((digitsRev 16 n).reverse.map (digitVal ∘ digitChar))
        = (digitsRev 16 n).reverse := by
      apply List.map_congr_left (g := id) (h := ?_) |>.trans (List.map_id _)
      intro d hd
      have hd16 : d < 16 := digitsRev_lt 16 n d (List.mem_reverse.1 hd)
      exact digitVal_digitChar d hd16
    rw [hmap]
    exact digitsVal_digitsRev 16 (by omega) n

theorem strVal_decStr (n : Nat) : strVal 10 (decStr n) = n := by
  by_cases h : n = 0
  · simp [h, decStr, strVal, digitVal]
  · simp only [decStr, h, if_false]
    rw [strVal_eq_digitsVal, ← List.map_reverse, List.map_map]
    have hmap : ((digitsRev 10 n).reverse.map (digitVal ∘ digitChar))
        = (digitsRev 10 n).reverse := by
      apply List.map_congr_left (g := id) (h := ?_) |>.trans (List.map_id _)
      intro d hd
      have hd10 : d < 10 := digitsRev_lt 10 n d (List.mem_reverse.1 hd)
      exact digitVal_digitChar d (by omega)
    rw [hmap]
    exact digitsVal_digitsRev 10 (by omega) n

theorem strVal_fmtHex04 (n : Nat) : strVal 16 (fmtHex04 n) = n := by
  rw [fmtHex04, padZero, strVal_replicate_zero_append, strVal_hexStr]

theorem mem_hexStr_isHexDigit (n : Nat) (c : Char) (hc : c ∈ hexStr n) :
    isHexDigit c = true := by
  by_cases h : n = 0
  · simp only [hexStr, h, if_true, List.mem_singleton] at hc
    subst hc; decide
  · simp only [hexStr, h, if_false, List.mem_reverse, List.mem_map] at hc
    obtain ⟨d, hd, rfl⟩ := hc
    exact isHexDigit_digitChar d (digitsRev_lt 16 n d hd)

theorem mem_fmtHex04_isHexDigit (n : Nat) (c : Char) (hc : c ∈ fmtHex04 n) :
    isHexDigit c = true := by
  simp only [fmtHex04, padZero, List.mem_append] at hc
  rcases hc with hc | hc
  · have := List.eq_of_mem_replicate hc
    subst this; decide
  · exact mem_hexStr_isHexDigit n c hc

theorem mem_decStr_isDecDigit (n : Nat) (c : Char) (hc : c ∈ decStr n) :
    isDecDigit c = true := by
  by_cases h : n = 0
  · simp only [decStr, h, if_true, List.mem_singleton] at hc
    subst hc; decide
  · simp only [decStr, h, if_false, List.mem_reverse, List.mem_map] at hc
    obtain ⟨d, hd, rfl⟩ := hc
    exact isDecDigit_digitChar d (digitsRev_lt 10 n d hd)

theorem hexStr_ne_nil (n : Nat) : hexStr n ≠ [] := by
  by_cases h : n = 0
  · simp [hexStr, h]
  · simp only [hexStr, h, if_false, ne_eq, List.reverse_eq_nil_iff, List.map_eq_nil_iff]
    rw [digitsRev_unfold]
    simp [h]

theorem decStr_ne_nil (n : Nat) : decStr n ≠ [] := by
  by_cases h : n = 0
  · simp [decStr, h]
  · simp only [decStr, h, if_false, ne_eq, List.reverse_eq_nil_iff, List.map_eq_nil_iff]
    rw [digitsRev_unfold]
    simp [h]

theorem fmtHex04_ne_nil (n : Nat) : fmtHex04 n ≠ [] := by
  simp only [fmtHex04, padZero, ne_eq, List.append_eq_nil, not_and]
  intro _
  exact hexStr_ne_nil n

theorem parseDigits_fmtHex04 (n : Nat) :
    parseDigits isHexDigit 16 (fmtHex04 n) = some n := by
  rw [parseDigits, if_neg (fmtHex04_ne_nil n)]
  have hall : (fmtHex04 n).all isHexDigit = true :=
    List.all_eq_true.2 (fun c hc => mem_fmtHex04_isHexDigit n c hc)
  rw [if_pos hall, strVal_fmtHex04]

theorem parseDigits_decStr (n : Nat) :
    parseDigits isDecDigit 10 (decStr n) = some n := by
  rw [parseDigits, if_neg (decStr_ne_nil n)]
  have hall : (decStr n).all isDecDigit = true :=
    List.all_eq_true.2 (fun c hc => mem_decStr_isDecDigit n c hc)
  rw [if_pos hall, strVal_decStr]

theorem goParseHex64_fmtHex04 (n : Nat) (h : n < 2 ^ 64) :
    goParseHex64 (fmtHex04 n) = some n := by
  rw [goParseHex64, parseDigits_fmtHex04]
  have h2 : n < 18446744073709551616 := by omega
  simp [h2]

theorem goParseDec32_decStr (n : Nat) (h : n < 2 ^ 32) :
    goParseDec32 (decStr n) = some n := by
  rw [goParseDec32, parseDigits_decStr]
  have h2 : n < 4294967296 := by omega
  simp [h2]

theorem isHexDigit_ne_comma (c : Char) (h : isHexDigit c = true) : c ≠ ',' := by
  intro hc; subst hc; simp [isHexDigit] at h

theorem isHexDigit_ne_space (c : Char) (h : isHexDigit c = true) : c ≠ ' ' := by
  intro hc; subst hc; simp [isHexDigit] at h

theorem isDecDigit_ne_comma (c : Char) (h : isDecDigit c = true) : c ≠ ',' := by
  intro hc; subst hc; simp [isDecDigit] at h

theorem isDecDigit_ne_space (c : Char) (h : isDecDigit c = true) : c ≠ ' ' := by
  intro hc; subst hc; simp [isDecDigit] at h

/-! ## Command Argument Builder (`natnet.go`: `CmdArg`, `CmdArgs`, `Args`) -/

/-- `CmdArg` models a command arg, which can be a flag or not (source:
`natnet.go`).  `K` is the key, `V` the optional value (`none` when the arg
takes no value), `ToCmdArgParts` the optional multi-token transform, and
`Del` the deletion marker. -/
structure CmdArg where
  K : GoStr
  V : Option GoStr
  ToCmdArgParts : Option (GoStr → GoStr → List GoStr) := none
  Del : Bool := false

/-- `CmdArgs` holds the base sequence `args` and the `overrides` sequence. -/
structure CmdArgs where
  args : List CmdArg := []
  overrides : List CmdArg := []

/-- `NewCmdArgNoValue` (source `natnet.go`). -/
def NewCmdArgNoValue (k : GoStr) : CmdArg := { K := k, V := none }

/-- `NewCmdArg` (source `natnet.go`). -/
def NewCmdArg (k v : GoStr) : CmdArg := { K := k, V := some v }

/-- `NewCmdArgDeleted` (source `natnet.go`). -/
def NewCmdArgDeleted (k : GoStr) : CmdArg := { K := k, V := none, Del := true }

/-- `CmdArgs.AppendNoValue` as a state transformer. -/
def CmdArgs.AppendNoValue (c : CmdArgs) (k : GoStr) : CmdArgs :=
  { c with args := c.args ++ [NewCmdArgNoValue k] }

/-- `CmdArgs.Append` as a state transformer. -/
def CmdArgs.Append (c : CmdArgs) (k v : GoStr) : CmdArgs :=
  { c with args := c.args ++ [NewCmdArg k v] }

/-- `CmdArgs.AppendCmdArgs` as a state transformer (the empty-slice early
return appends nothing either way). -/
def CmdArgs.AppendCmdArgs (c : CmdArgs) (l : List CmdArg) : CmdArgs :=
  { c with args := c.args ++ l }

/-- `CmdArgs.AppendOverride` as a state transformer. -/
def CmdArgs.AppendOverride (c : CmdArgs) (l : List CmdArg) : CmdArgs :=
  { c with overrides := c.overrides ++ l }

/-- One element appended by a call in a base/override call sequence: `base a`
stands for an element contributed by `Append`, `AppendNoValue` or
`AppendCmdArgs`; `over a` for one contributed by `AppendOverride`. -/
inductive ArgCall where
  | base (a : CmdArg)
  | over (a : CmdArg)

/-- Replay an interleaved call sequence against an empty `CmdArgs`. -/
def runCalls (cs : List ArgCall) : CmdArgs :=
  cs.foldl
    (fun c call =>
      match call with
      | .base a => c.AppendCmdArgs [a]
      | .over a => c.AppendOverride [a])
    {}

/-- The base elements of a call sequence, in call order. -/
def baseOf (cs : List ArgCall) : List CmdArg :=
  cs.filterMap (fun call => match call with | .base a => some a | .over _ => none)

/-- The override elements of a call sequence, in call order. -/
def overOf (cs : List ArgCall) : List CmdArg :=
  cs.filterMap (fun call => match call with | .base _ => none | .over a => some a)

theorem runCalls_eq (cs : List ArgCall) :
    runCalls cs = { args := baseOf cs, overrides := overOf cs } := by
  suffices h : ∀ c : CmdArgs, cs.foldl
      (fun c call =>
        match call with
        | .base a => c.AppendCmdArgs [a]
        | .over a => c.AppendOverride [a]) c
      = { args := c.args ++ baseOf cs, overrides := c.overrides ++ overOf cs } by
    have h2 := h {}
    simpa [runCalls] using h2
  induction cs with
  | nil => intro c; simp [baseOf, overOf]
  | cons call cs ih =>
    intro c
    cases call with
    | base a =>
      rw [List.foldl_cons, ih]
      simp [CmdArgs.AppendCmdArgs, baseOf, overOf, List.filterMap_cons]
    | over a =>
      rw [List.foldl_cons, ih]
      simp [CmdArgs.AppendOverride, baseOf, overOf, List.filterMap_cons]

/-- One step of the deduplicating scan in `CmdArgs.Args` (source
`natnet.go`): the argument object always replaces any stored object for its
key; the key is recorded in the order list only on first sight. -/
def scanStep (acc : (GoStr → Option CmdArg) × List GoStr) (a : CmdArg) :
    (GoStr → Option CmdArg) × List GoStr :=
  (fun k => if k = a.K then some a else acc.1 k,
   if (acc.1 a.K).isSome then acc.2 else acc.2 ++ [a.K])

/-- The map and first-seen key order built by `CmdArgs.Args` over the
concatenation of base and override sequences. -/
def scanArgs (l : List CmdArg) : (GoStr → Option CmdArg) × List GoStr :=
  l.foldl scanStep (fun _ => none, [])

/-- Emission of a single surviving argument in `CmdArgs.Args`: deleted args
emit nothing; value-less args emit the bare key; otherwise key+value or the
multi-token transform output. -/
def emitArg (a : CmdArg) : List GoStr :=
  if a.Del then []
  else
    match a.V with
    | none => [a.K]
    | some v =>
      match a.ToCmdArgParts with
      | none => [a.K, v]
      | some f => f a.K v

/-- The fragment emitted for key `k` given the scanned argument list `l`. -/
def emitFor (l : List CmdArg) (k : GoStr) : List GoStr :=
  match (scanArgs l).1 k with
  | some a => emitArg a
  | none => []

/-- `CmdArgs.Args` (source `natnet.go`): scan base then overrides, then walk
keys in first-seen order emitting each surviving argument. -/
def CmdArgs.Args (c : CmdArgs) : List GoStr :=
  ((scanArgs (c.args ++ c.overrides)).2.map
    (fun k => emitFor (c.args ++ c.overrides) k)).flatten

/-- The last argument with key `k` in `l`, which is what the scan map stores. -/
def lastWithKey (l : List CmdArg) (k : GoStr) : Option CmdArg :=
  (l.filter (fun a => a.K = k)).getLast?

theorem scanArgs_append_one (l : List CmdArg) (a : CmdArg) :
    scanArgs (l ++ [a]) = scanStep (scanArgs l) a := by
  simp [scanArgs, List.foldl_append]

theorem scanArgs_fst_eq_lastWithKey (l : List CmdArg) (k : GoStr) :
    (scanArgs l).1 k = lastWithKey l k := by
  induction l using List.reverseRecOn with
  | nil => simp [scanArgs, lastWithKey]
  | append_singleton l a ih =>
    rw [scanArgs_append_one]
    simp only [scanStep, lastWithKey, List.filter_append]
    by_cases hk : k = a.K
    · subst hk
      simp [List.getLast?_append]
    · have hd : (decide (a.K = k)) = false := by
        apply decide_eq_false
        intro heq
        exact hk heq.symm
      have hf : (List.filter (fun x => decide (x.K = k)) [a]) = [] := by
        simp [List.filter_cons, hd]
      simp only [if_neg hk, hf, List.append_nil]
      exact ih

theorem scanArgs_fst_isSome_iff (l : List CmdArg) (k : GoStr) :
    ((scanArgs l).1 k).isSome ↔ k ∈ l.map CmdArg.K := by
  induction l using List.reverseRecOn with
  | nil => simp [scanArgs]
  | append_singleton l a ih =>
    rw [scanArgs_append_one]
    simp only [scanStep, List.map_append, List.mem_append]
    by_cases hk : k = a.K
    · subst hk; simp
    · simp only [if_neg hk, ih, List.map_cons, List.map_nil, List.mem_singleton]
      constructor
      · exact Or.inl
      · intro h
        rcases h with h | h
        · exact h
        · exact absurd h hk

theorem scanArgs_snd_mem_iff (l : List CmdArg) (k : GoStr) :
    k ∈ (scanArgs l).2 ↔ k ∈ l.map CmdArg.K := by
  induction l using List.reverseRecOn with
  | nil => simp [scanArgs]
  | append_singleton l a ih =>
    rw [scanArgs_append_one]
    simp only [scanStep, List.map_append, List.mem_append]
    by_cases hs : ((scanArgs l).1 a.K).isSome
    · have haK : a.K ∈ l.map CmdArg.K := (scanArgs_fst_isSome_iff l a.K).1 hs
      simp only [if_pos hs, ih]
      constructor
      · exact Or.inl
      · intro h
        rcases h with h | h
        · exact h
        · simp only [List.map_cons, List.map_nil, List.mem_singleton] at h
          subst h; exact haK
    · simp only [if_neg hs, List.mem_append, ih, List.mem_singleton]
      simp

theorem scanArgs_snd_nodup (l : List CmdArg) : (scanArgs l).2.Nodup := by
  induction l using List.reverseRecOn with
  | nil => simp [scanArgs]
  | append_singleton l a ih =>
    rw [scanArgs_append_one]
    simp only [scanStep]
    by_cases hs : ((scanArgs l).1 a.K).isSome
    · simpa [hs] using ih
    · have hnm : a.K ∉ (scanArgs l).2 := by
        rw [scanArgs_snd_mem_iff]
        intro hmem
        exact hs ((scanArgs_fst_isSome_iff l a.K).2 hmem)
      simp only [if_neg hs]
      exact List.Nodup.append ih (List.nodup_singleton _)
        (List.disjoint_singleton.2 hnm)

theorem lastWithKey_mem (l : List CmdArg) (k : GoStr) (a : CmdArg)
    (h : lastWithKey l k = some a) : a ∈ l ∧ a.K = k := by
  have hm : a ∈ l.filter (fun x => x.K = k) := by
    have hopt : a ∈ (l.filter (fun x => x.K = k)).getLast? := by
      rw [lastWithKey] at h
      simp [Option.mem_def, h]
    obtain ⟨hne, heq⟩ := List.mem_getLast?_eq_getLast hopt
    rw [heq]
    exact List.getLast_mem hne
  have := List.mem_filter.1 hm
  exact ⟨this.1, by simpa using this.2⟩

theorem lastWithKey_append_right (base ov : List CmdArg) (k : GoStr)
    (h : k ∈ ov.map CmdArg.K) :
    lastWithKey (base ++ ov) k = lastWithKey ov k := by
  rw [lastWithKey, lastWithKey, List.filter_append]
  apply List.getLast?_append_of_ne_nil
  obtain ⟨a, ha, hak⟩ := List.mem_map.1 h
  apply List.ne_nil_of_mem (a := a)
  exact List.mem_filter.2 ⟨ha, by simpa using hak⟩

/-- **C1.** For every interleaved sequence of base appends
(`Append`/`AppendNoValue`/`AppendCmdArgs`) and `AppendOverride` calls, the
token list returned by `Args()` is the concatenation of per-key fragments
over a duplicate-free key list (each argument key is emitted at most once),
the emitted keys are exactly the appended keys, and the fragment emitted
for any key occurring in the override sequence is computed from the
override sequence alone — the override value wins regardless of the
relative order of base and override appends. -/
theorem c1_cmdargs_key_unique_override_wins (cs : List ArgCall) :
    (scanArgs (baseOf cs ++ overOf cs)).2.Nodup
    ∧ (runCalls cs).Args
        = ((scanArgs (baseOf cs ++ overOf cs)).2.map
            (fun k => emitFor (baseOf cs ++ overOf cs) k)).flatten
    ∧ (∀ k, k ∈ (scanArgs (baseOf cs ++ overOf cs)).2 ↔
        k ∈ (baseOf cs ++ overOf cs).map CmdArg.K)
    ∧ (∀ k, k ∈ (overOf cs).map CmdArg.K →
        emitFor (baseOf cs ++ overOf cs) k = emitFor (overOf cs) k) := by
  refine ⟨scanArgs_snd_nodup _, ?_, fun k => scanArgs_snd_mem_iff _ k, fun k hk => ?_⟩
  · rw [runCalls_eq]
    rfl
  · rw [emitFor, emitFor, scanArgs_fst_eq_lastWithKey, scanArgs_fst_eq_lastWithKey,
      lastWithKey_append_right _ _ _ hk]

/-- Witness for C1: two base writes and one override for key `a`; the
emitted fragment comes from the override and `Args` is exactly that
fragment in first-seen order. -/
theorem c1_witness :
    emitFor
        (baseOf [ArgCall.base (NewCmdArg (gs "a") (gs "1")),
                 ArgCall.over (NewCmdArg (gs "a") (gs "2"))]
          ++ overOf [ArgCall.base (NewCmdArg (gs "a") (gs "1")),
                 ArgCall.over (NewCmdArg (gs "a") (gs "2"))])
        (gs "a")
      = emitFor (overOf [ArgCall.base (NewCmdArg (gs "a") (gs "1")),
                 ArgCall.over (NewCmdArg (gs "a") (gs "2"))]) (gs "a")
    ∧ (runCalls [ArgCall.base (NewCmdArg (gs "a") (gs "1")),
                 ArgCall.over (NewCmdArg (gs "a") (gs "2"))]).Args
      = [gs "a", gs "2"] := by
  constructor
  · exact (c1_cmdargs_key_unique_override_wins _).2.2.2 (gs "a") (by
      show gs "a" ∈ List.map CmdArg.K (overOf _)
      simp [overOf, NewCmdArg])
  · rfl

/-- **C6.** A key whose last-stored argument carries the deletion marker
never appears in the `Args()` output (stated for arguments without
multi-token transforms and whose values do not collide with the key, so
that token occurrences are key occurrences). -/
theorem c6_deleted_key_never_emitted (cs : List ArgCall) (k : GoStr) (a : CmdArg)
    (hlast : lastWithKey (baseOf cs ++ overOf cs) k = some a)
    (hdel : a.Del = true)
    (hplain : ∀ b ∈ baseOf cs ++ overOf cs, b.ToCmdArgParts = none)
    (hval : ∀ b ∈ baseOf cs ++ overOf cs, b.V ≠ some k) :
    k ∉ (runCalls cs).Args := by
  intro hmem
  rw [runCalls_eq] at hmem
  have hmem2 : k ∈ ((scanArgs (baseOf cs ++ overOf cs)).2.map
      (fun kk => emitFor (baseOf cs ++ overOf cs) kk)).flatten := hmem
  rw [List.mem_flatten] at hmem2
  obtain ⟨frag, hfrag, hkfrag⟩ := hmem2
  rw [List.mem_map] at hfrag
  obtain ⟨kk, hkk, rfl⟩ := hfrag
  rw [emitFor, scanArgs_fst_eq_lastWithKey] at hkfrag
  by_cases hkeq : kk = k
  · rw [hkeq, hlast] at hkfrag
    simp only [emitArg, hdel, if_true] at hkfrag
    simp at hkfrag
  · cases hb : lastWithKey (baseOf cs ++ overOf cs) kk with
    | none =>
      rw [hb] at hkfrag
      simp at hkfrag
    | some b =>
      rw [hb] at hkfrag
      obtain ⟨hbmem, hbK⟩ := lastWithKey_mem _ _ _ hb
      by_cases hbd : b.Del = true
      · simp only [emitArg, hbd, if_true] at hkfrag
        simp at hkfrag
      · simp only [emitArg, hbd, Bool.false_eq_true, if_false] at hkfrag
        cases hbv : b.V with
        | none =>
          rw [hbv] at hkfrag
          simp only [List.mem_singleton] at hkfrag
          exact hkeq (hbK ▸ hkfrag.symm)
        | some v =>
          rw [hbv, hplain b hbmem] at hkfrag
          simp only [List.mem_cons, List.mem_singleton, List.not_mem_nil, or_false]
            at hkfrag
          rcases hkfrag with hk1 | hk2
          · exact hkeq (hbK ▸ hk1.symm)
          · exact hval b hbmem (by rw [hbv, hk2])

/-- Witness for C6: a non-deleted base write for key `x` is suppressed by a
deleted override entry for the same key: `x` is absent from the output. -/
theorem c6_witness :
    gs "x" ∉ (runCalls [ArgCall.base (NewCmdArg (gs "x") (gs "1")),
                        ArgCall.over (NewCmdArgDeleted (gs "x"))]).Args := by
  apply c6_deleted_key_never_emitted _ _ (NewCmdArgDeleted (gs "x"))
  · rfl
  · rfl
  · intro b hb
    simp only [baseOf, overOf, List.filterMap_cons, List.filterMap_nil] at hb
    rcases List.mem_cons.1 hb with rfl | hb2
    · rfl
    · rcases List.mem_cons.1 hb2 with rfl | hb3
      · rfl
      · exact absurd hb3 (List.not_mem_nil b)
  · intro b hb
    simp only [baseOf, overOf, List.filterMap_cons, List.filterMap_nil] at hb
    rcases List.mem_cons.1 hb with rfl | hb2
    · intro hv
      rw [NewCmdArg] at hv
      have := Option.some.inj hv
      exact absurd this (by decide)
    · rcases List.mem_cons.1 hb2 with rfl | hb3
      · intro hv
        exact Option.noConfusion hv
      · exact absurd hb3 (List.not_mem_nil b)

/-! ## Colon-block listings (`vbmgt.go` regex, `dhcp.go` `DHCPs`,
`natnet.go` `NATNets`) -/

/-- RE2 `\s`: `[\t\n\f\r ]`. -/
def isGoSpace (c : Char) : Bool :=
  c = ' ' || c = Char.ofNat 9 || c = Char.ofNat 10 || c = Char.ofNat 12
    || c = Char.ofNat 13

/-- Position `i` can serve as the colon of `(.+):\s+(.*)`: at least one
character before it, a colon at `i`, and a whitespace character after it. -/
def colonQual (ln : GoStr) (i : Nat) : Bool :=
  decide (1 ≤ i) && decide (ln[i]? = some ':') &&
    (match ln[i + 1]? with
     | some c => isGoSpace c
     | none => false)

/-- The colon position chosen by the greedy leftmost-first match of
`reColonLine = (.+):\s+(.*)` (source `vbmgt.go`): the greedy `(.+)` picks
the largest feasible split point. -/
def lastColonPos (ln : GoStr) : Option Nat :=
  ((List.range ln.length).filter (fun i => colonQual ln i)).getLast?

/-- `reColonLine.FindStringSubmatch`: key capture and value capture (the
greedy `\s+` consumes the maximal whitespace run before the value). -/
def reColonLineMatch (ln : GoStr) : Option (GoStr × GoStr) :=
  match lastColonPos ln with
  | none => none
  | some i => some (ln.take i, (ln.drop (i + 1)).dropWhile isGoSpace)

/-- ASCII lowering of one character (`strings.ToLower` restricted to the
ASCII keys that occur in these listings). -/
def lowerCh (c : Char) : Char :=
  if 'A' ≤ c && c ≤ 'Z' then Char.ofNat (c.toNat + 32) else c

/-- `strings.ToLower` on an ASCII key. -/
def goToLower (s : GoStr) : GoStr := s.map lowerCh

/-- Modelled from the spec: the constant `stringYes` compared against
enabled-flags (`"Enabled: Yes"`) is defined outside the provided sources;
the listing examples in the sources use `Yes`. -/
def stringYes : GoStr := gs "Yes"

/-- Association-list lookup, modelling read access to a Go map. -/
def alookup {β : Type} : List (GoStr × β) → GoStr → Option β
  | [], _ => none
  | (k, v) :: rest, key => if k = key then some v else alookup rest key

/-- Go map assignment `m[k] = v`: replace in place or append. -/
def aupsert {β : Type} : List (GoStr × β) → GoStr → β → List (GoStr × β)
  | [], k, v => [(k, v)]
  | (k2, v2) :: rest, k, v =>
    if k2 = k then (k, v) :: rest else (k2, v2) :: aupsert rest k v

theorem alookup_append_some {β : Type} (m m2 : List (GoStr × β)) (k : GoStr)
    (v : β) (h : alookup m k = some v) : alookup (m ++ m2) k = some v := by
  induction m with
  | nil => simp [alookup] at h
  | cons p rest ih =>
    rw [List.cons_append]
    rw [alookup] at h ⊢
    by_cases hk : p.1 = k
    · simpa [hk] using h
    · rw [if_neg hk] at h ⊢
      exact ih h

theorem alookup_none_iff {β : Type} (m : List (GoStr × β)) (k : GoStr) :
    alookup m k = none ↔ k ∉ m.map Prod.fst := by
  induction m with
  | nil => simp [alookup]
  | cons p rest ih =>
    obtain ⟨k2, v2⟩ := p
    rw [alookup]
    by_cases hk : k2 = k
    · subst hk
      rw [if_pos rfl, List.map_cons]
      constructor
      · intro h2
        exact Option.noConfusion h2
      · intro h2
        exact absurd (List.mem_cons_self _ _) h2
    · rw [if_neg hk, ih]
      simp only [List.map_cons, List.mem_cons]
      constructor
      · intro h hmem
        rcases hmem with hmem | hmem
        · exact hk hmem.symm
        · exact h hmem
      · intro h hmem
        exact h (Or.inr hmem)

theorem alookup_append_singleton_self {β : Type} (m : List (GoStr × β))
    (k : GoStr) (v : β) (h : alookup m k = none) :
    alookup (m ++ [(k, v)]) k = some v := by
  induction m with
  | nil => simp [alookup]
  | cons p rest ih =>
    rw [alookup] at h
    by_cases hk : p.1 = k
    · rw [if_pos hk] at h
      exact Option.noConfusion h
    · rw [if_neg hk] at h
      rw [List.cons_append, alookup, if_neg hk]
      exact ih h

/-- One DHCP server record (`dhcp.go`).  The values handed to the net
library (`net.ParseIP(...)`, `ParseIPv4Mask`) are retained as the raw
strings the code passes to them. -/
structure DHCP where
  NetworkName : GoStr := []
  IPv4IP : GoStr := []
  NetworkMask : GoStr := []
  LowerIP : GoStr := []
  UpperIP : GoStr := []
  Enabled : Bool := false
deriving DecidableEq, Repr

/-- Scanner state for `DHCPs`: Go stores `*DHCP` pointers in the result
map while continuing to mutate the pointee, so the heap of records is
modelled explicitly: `recs` is the allocation list, `cur` the index of the
record currently being filled, and `m` maps a network name to the index of
its record. -/
structure DHCPScan where
  recs : List DHCP
  cur : Nat
  m : List (GoStr × Nat)
deriving DecidableEq, Repr

/-- Initial state: one fresh record, nothing mapped. -/
def dhcpInit : DHCPScan := { recs := [{}], cur := 0, m := [] }

/-- Record lookup through the name map (the view a caller has of the
returned `map[string]*DHCP`). -/
def DHCPScan.find (st : DHCPScan) (nm : GoStr) : Option DHCP :=
  match alookup st.m nm with
  | none => none
  | some i => st.recs[i]?

/-- `DHCPs` parse error: a record with an already-parsed name. -/
inductive DHCPErr where
  | dupName (nm : GoStr)
deriving DecidableEq, Repr

/-- Field update for the non-name cases of the `DHCPs` switch (keys are
compared after lowering). -/
def dhcpField (d : DHCP) (key val : GoStr) : DHCP :=
  if key = gs "ip" ∨ key = gs "dhcpd ip" then { d with IPv4IP := val }
  else if key = gs "upperipaddress" then { d with UpperIP := val }
  else if key = gs "loweripaddress" then { d with LowerIP := val }
  else if key = gs "networkmask" then { d with NetworkMask := val }
  else if key = gs "enabled" then { d with Enabled := val = stringYes }
  else d

/-- One scanned line of `DHCPs` (source `dhcp.go`): blank lines allocate a
fresh record; a `networkname` line stores the current record in the map at
once (so a final record without a trailing blank line is not lost) after a
fatal duplicate check; other recognized keys mutate the current record in
place. -/
def dhcpStep (st : DHCPScan) (ln : GoStr) : Except DHCPErr DHCPScan :=
  if ln = [] then
    .ok { recs := st.recs ++ [{}], cur := st.recs.length, m := st.m }
  else
    match reColonLineMatch ln with
    | none => .ok st
    | some (k, v) =>
      if goToLower k = gs "networkname" then
        if (alookup st.m v).isSome then .error (.dupName v)
        else
          .ok { recs := st.recs.set st.cur
                  { st.recs.getD st.cur {} with NetworkName := v },
                cur := st.cur,
                m := st.m ++ [(v, st.cur)] }
      else
        .ok { st with
          recs := st.recs.set st.cur
            (dhcpField (st.recs.getD st.cur {}) (goToLower k) v) }

/-- Run `DHCPs` over the remaining lines from a given state. -/
def dhcpRun (st : DHCPScan) : List GoStr → Except DHCPErr DHCPScan
  | [] => .ok st
  | l :: ls =>
    match dhcpStep st l with
    | .ok st2 => dhcpRun st2 ls
    | .error e => .error e

/-- `DHCPs` (source `dhcp.go`), over the scanned lines of the listing. -/
def DHCPs (lines : List GoStr) : Except DHCPErr DHCPScan :=
  dhcpRun dhcpInit lines

/-- The network name recognized on one line (mirrors the branch structure
of `dhcpStep`). -/
def nameOfLine (ln : GoStr) : Option GoStr :=
  if ln = [] then none
  else
    match reColonLineMatch ln with
    | none => none
    | some (k, v) => if goToLower k = gs "networkname" then some v else none

/-- All network names announced by a listing, in order. -/
def namesOf (lines : List GoStr) : List GoStr := lines.filterMap nameOfLine

/-- Keys of the name map. -/
def keysOf (m : List (GoStr × Nat)) : List GoStr := m.map Prod.fst

/-- Well-formedness of the scan state: the current record and all mapped
records are live heap indices. -/
def DHCPScan.WF (st : DHCPScan) : Prop :=
  st.cur < st.recs.length ∧ ∀ p ∈ st.m, p.2 < st.recs.length

theorem dhcpInit_WF : dhcpInit.WF := by
  constructor
  · simp [dhcpInit]
  · intro p hp
    simp [dhcpInit] at hp


theorem isSome_getElem_iff {α : Type} (l : List α) (i : Nat) :
    l[i]?.isSome = true ↔ i < l.length := by
  constructor
  · intro h
    by_contra hc
    rw [List.getElem?_eq_none (by omega)] at h
    simp at h
  · intro h
    simp [List.getElem?_eq_getElem h]

theorem dhcpStep_WF (st st2 : DHCPScan) (ln : GoStr)
    (h : dhcpStep st ln = .ok st2) (hwf : st.WF) : st2.WF := by
  obtain ⟨hcur, hm⟩ := hwf
  rw [dhcpStep] at h
  split at h
  · cases h
    constructor
    · simp
    · intro p hp
      have := hm p hp
      simp
      omega
  · split at h
    · cases h
      exact ⟨hcur, hm⟩
    · split at h
      · split at h
        · exact Except.noConfusion h
        · cases h
          constructor
          · simpa using hcur
          · intro p hp
            rcases List.mem_append.1 hp with hp | hp
            · have := hm p hp
              simpa using this
            · rw [List.mem_singleton] at hp
              subst hp
              simpa using hcur
      · cases h
        constructor
        · simpa using hcur
        · intro p hp
          have := hm p hp
          simpa using this

theorem dhcpStep_find_mono (st st2 : DHCPScan) (ln : GoStr)
    (h : dhcpStep st ln = .ok st2) (nm : GoStr)
    (hf : (st.find nm).isSome) : (st2.find nm).isSome := by
  rw [DHCPScan.find] at hf
  cases hl : alookup st.m nm with
  | none => rw [hl] at hf; simp at hf
  | some i =>
    rw [hl] at hf
    have hi : i < st.recs.length := (isSome_getElem_iff _ _).1 hf
    rw [dhcpStep] at h
    split at h
    · cases h
      rw [DHCPScan.find]
      simp only [hl]
      rw [isSome_getElem_iff]
      simp only [List.length_append, List.length_singleton]
      omega
    · split at h
      · cases h
        rw [DHCPScan.find]
        simp only [hl]
        exact (isSome_getElem_iff _ _).2 hi
      · split at h
        · split at h
          · exact Except.noConfusion h
          · cases h
            rw [DHCPScan.find]
            rw [alookup_append_some _ _ _ _ hl]
            rw [isSome_getElem_iff]
            simp only [List.length_set]
            exact hi
        · cases h
          rw [DHCPScan.find]
          simp only [hl]
          rw [isSome_getElem_iff]
          simp only [List.length_set]
          exact hi

theorem dhcpStep_name_adds (st st2 : DHCPScan) (ln k v : GoStr)
    (hmatch : reColonLineMatch ln = some (k, v))
    (hkey : goToLower k = gs "networkname")
    (h : dhcpStep st ln = .ok st2) (hwf : st.WF) :
    (st2.find v).isSome := by
  have hln : ln ≠ [] := by
    intro hln
    subst hln
    exact Option.noConfusion (hmatch.symm.trans rfl)
  rw [dhcpStep, if_neg hln] at h
  simp only [hmatch] at h
  rw [if_pos hkey] at h
  split at h
  · exact Except.noConfusion h
  · rename_i hdup
    cases h
    rw [DHCPScan.find]
    rw [alookup_append_singleton_self]
    · rw [isSome_getElem_iff]
      simp only [List.length_set]
      exact hwf.1
    · cases hal : alookup st.m v with
      | none => rfl
      | some j => rw [hal] at hdup; simp at hdup

theorem dhcpRun_mono (lines : List GoStr) (st fin : DHCPScan)
    (h : dhcpRun st lines = .ok fin) (nm : GoStr)
    (hf : (st.find nm).isSome) : (fin.find nm).isSome := by
  induction lines generalizing st with
  | nil =>
    rw [dhcpRun] at h
    cases h
    exact hf
  | cons l ls ih =>
    rw [dhcpRun] at h
    split at h
    · rename_i st2 hstep
      exact ih st2 h (dhcpStep_find_mono st st2 l hstep nm hf)
    · exact Except.noConfusion h

theorem dhcpRun_WF (lines : List GoStr) (st fin : DHCPScan)
    (h : dhcpRun st lines = .ok fin) (hwf : st.WF) : fin.WF := by
  induction lines generalizing st with
  | nil =>
    rw [dhcpRun] at h
    cases h
    exact hwf
  | cons l ls ih =>
    rw [dhcpRun] at h
    split at h
    · rename_i st2 hstep
      exact ih st2 h (dhcpStep_WF st st2 l hstep hwf)
    · exact Except.noConfusion h

theorem dhcpRun_name_found (lines : List GoStr) (st fin : DHCPScan)
    (h : dhcpRun st lines = .ok fin) (hwf : st.WF)
    (l k v : GoStr) (hl : l ∈ lines)
    (hmatch : reColonLineMatch l = some (k, v))
    (hkey : goToLower k = gs "networkname") :
    (fin.find v).isSome := by
  induction lines generalizing st with
  | nil => exact absurd hl (List.not_mem_nil l)
  | cons l0 ls ih =>
    rw [dhcpRun] at h
    split at h
    · rename_i st2 hstep
      rcases List.mem_cons.1 hl with rfl | hl2
      · exact dhcpRun_mono ls st2 fin h v
          (dhcpStep_name_adds st st2 l k v hmatch hkey hstep hwf)
      · exact ih st2 h (dhcpStep_WF st st2 l0 hstep hwf) hl2
    · exact Except.noConfusion h

theorem dhcpStep_keys (st st2 : DHCPScan) (ln : GoStr)
    (h : dhcpStep st ln = .ok st2) :
    keysOf st2.m = keysOf st.m ++ (nameOfLine ln).toList := by
  rw [dhcpStep] at h
  split at h
  · rename_i hln
    cases h
    have hn : nameOfLine ln = none := by rw [nameOfLine, if_pos hln]
    rw [hn]
    simp [keysOf]
  · rename_i hln
    split at h
    · rename_i heq
      cases h
      have hn : nameOfLine ln = none := by
        rw [nameOfLine, if_neg hln]
        simp [heq]
      rw [hn]
      simp
    · rename_i k v heq
      split at h
      · rename_i hkey
        split at h
        · exact Except.noConfusion h
        · cases h
          have hn : nameOfLine ln = some v := by
            rw [nameOfLine, if_neg hln]
            simp [heq, hkey]
          rw [hn]
          simp [keysOf]
      · rename_i hkey
        cases h
        have hn : nameOfLine ln = none := by
          rw [nameOfLine, if_neg hln]
          simp [heq, hkey]
        rw [hn]
        simp

theorem dhcpStep_keys_nodup (st st2 : DHCPScan) (ln : GoStr)
    (h : dhcpStep st ln = .ok st2) (hnd : (keysOf st.m).Nodup) :
    (keysOf st2.m).Nodup := by
  rw [dhcpStep] at h
  split at h
  · cases h; exact hnd
  · split at h
    · cases h; exact hnd
    · rename_i k v heq
      split at h
      · split at h
        · exact Except.noConfusion h
        · rename_i hdup
          cases h
          have hvnot : v ∉ keysOf st.m := by
            rw [keysOf, ← alookup_none_iff]
            cases hal : alookup st.m v with
            | none => rfl
            | some j => rw [hal] at hdup; simp at hdup
          show (keysOf (st.m ++ [(v, st.cur)])).Nodup
          have : keysOf (st.m ++ [(v, st.cur)]) = keysOf st.m ++ [v] := by
            simp [keysOf]
          rw [this]
          exact List.Nodup.append hnd (List.nodup_singleton v)
            (List.disjoint_singleton.2 hvnot)
      · cases h; exact hnd

theorem dhcpRun_keys_eq (lines : List GoStr) (st fin : DHCPScan)
    (h : dhcpRun st lines = .ok fin) :
    keysOf fin.m = keysOf st.m ++ namesOf lines := by
  induction lines generalizing st with
  | nil =>
    rw [dhcpRun] at h
    cases h
    simp [namesOf]
  | cons l ls ih =>
    rw [dhcpRun] at h
    split at h
    · rename_i st2 hstep
      rw [ih st2 h, dhcpStep_keys st st2 l hstep]
      simp only [namesOf, List.filterMap_cons]
      cases hno : nameOfLine l with
      | none => simp [hno]
      | some nm => simp [hno]
    · exact Except.noConfusion h

theorem dhcpRun_keys_nodup (lines : List GoStr) (st fin : DHCPScan)
    (h : dhcpRun st lines = .ok fin) (hnd : (keysOf st.m).Nodup) :
    (keysOf fin.m).Nodup := by
  induction lines generalizing st with
  | nil => rw [dhcpRun] at h; cases h; exact hnd
  | cons l ls ih =>
    rw [dhcpRun] at h
    split at h
    · rename_i st2 hstep
      exact ih st2 h (dhcpStep_keys_nodup st st2 l hstep hnd)
    · exact Except.noConfusion h

theorem DHCPs_ok_names_nodup (lines : List GoStr) (fin : DHCPScan)
    (h : DHCPs lines = .ok fin) : (namesOf lines).Nodup := by
  have h1 := dhcpRun_keys_eq lines dhcpInit fin h
  have h2 := dhcpRun_keys_nodup lines dhcpInit fin h (by simp [dhcpInit, keysOf])
  rw [h1] at h2
  simp only [dhcpInit, keysOf, List.map_nil, List.nil_append] at h2
  exact h2

/-! ### `NATNets` (`natnet.go`) -/

/-- One NAT network record (`natnet.go`).  As for `DHCP`, values handed to
the net library are retained as the raw strings. -/
structure NATNet where
  Name : GoStr := []
  IPv4IP : GoStr := []
  IPv4Mask : GoStr := []
  IPv6Mask : GoStr := []
  DHCP : Bool := false
  Enabled : Bool := false
deriving DecidableEq, Repr

/-- `NATNets` parse error (an unparsable CIDR value). -/
inductive NATErr where
  | badCIDR (v : GoStr)
deriving DecidableEq, Repr

/-- One scanned line of `NATNets` (source `natnet.go`).  `cidrMask` stands
for the mask extraction of the standard library's `net.ParseCIDR` (not
part of this repository): `none` models a parse failure.  Unlike `DHCPs`,
the accumulated record is written to the map only on a blank line, with
plain Go map assignment (silent overwrite), and keys are matched
case-sensitively with no duplicate check. -/
def natnetStep (cidrMask : GoStr → Option GoStr)
    (st : List (GoStr × NATNet) × NATNet) (ln : GoStr) :
    Except NATErr (List (GoStr × NATNet) × NATNet) :=
  if ln = [] then .ok (aupsert st.1 st.2.Name st.2, {})
  else
    match reColonLineMatch ln with
    | none => .ok st
    | some (k, v) =>
      if k = gs "Name" ∨ k = gs "NetworkName" then
        .ok (st.1, { st.2 with Name := v })
      else if k = gs "IP" ∨ k = gs "Gateway" then
        .ok (st.1, { st.2 with IPv4IP := v })
      else if k = gs "Network" then
        match cidrMask v with
        | none => .error (.badCIDR v)
        | some msk => .ok (st.1, { st.2 with IPv4Mask := msk })
      else if k = gs "IPv6 Prefix" then
        match cidrMask v with
        | none => .error (.badCIDR v)
        | some msk => .ok (st.1, { st.2 with IPv6Mask := msk })
      else if k = gs "DHCP Enabled" then
        .ok (st.1, { st.2 with DHCP := v = stringYes })
      else if k = gs "Enabled" then
        .ok (st.1, { st.2 with Enabled := v = stringYes })
      else .ok st

/-- Run `NATNets` over the remaining lines. -/
def natnetRun (cidrMask : GoStr → Option GoStr)
    (st : List (GoStr × NATNet) × NATNet) :
    List GoStr → Except NATErr (List (GoStr × NATNet) × NATNet)
  | [] => .ok st
  | l :: ls =>
    match natnetStep cidrMask st l with
    | .ok st2 => natnetRun cidrMask st2 ls
    | .error e => .error e

/-- `NATNets` (source `natnet.go`): the returned map is the accumulated
association list; the record being accumulated when the stream ends is
discarded. -/
def NATNets (cidrMask : GoStr → Option GoStr) (lines : List GoStr) :
    Except NATErr (List (GoStr × NATNet)) :=
  match natnetRun cidrMask ([], {}) lines with
  | .ok st => .ok st.1
  | .error e => .error e

/-- The two-record DHCP listing of the spec scenario: the second record is
not followed by a blank line. -/
def dhcpTwoRecListing : List GoStr :=
  [gs "NetworkName:    net1",
   gs "Dhcpd IP:       10.0.2.2",
   gs "",
   gs "NetworkName:    net2",
   gs "lowerIPAddress: 10.0.3.2"]

/-- The scan state `DHCPs` produces on `dhcpTwoRecListing`. -/
def dhcpTwoRecState : DHCPScan :=
  { recs := [{ NetworkName := gs "net1", IPv4IP := gs "10.0.2.2" },
             { NetworkName := gs "net2", LowerIP := gs "10.0.3.2" }],
    cur := 1,
    m := [(gs "net1", 0), (gs "net2", 1)] }

/-- **C2, counterexample.** The claim quantifies over both colon-block
listings, but `NATNets` flushes the accumulated record only on a blank
line: a listing whose last populated record (here `Name = x`,
`Enabled = Yes`) is not followed by a blank line yields an empty map — the
record is dropped, so the claimed retention fails for `NATNets`. -/
theorem c2_counterexample_natnets_drops_last :
    NATNets (fun _ => none) [gs "Name:    x", gs "Enabled: Yes"]
      = .ok [] := by rfl

/-- **C2, amended.** For `DHCPs` the claim holds: every record whose
`networkname` line is scanned is present in the returned map keyed by that
name, trailing blank line or not, because the record is stored in the map
as soon as its name is parsed.  (`NATNets` instead drops a final record
that is not followed by a blank line.) -/
theorem c2_amended_dhcps_keeps_last_record (lines : List GoStr)
    (fin : DHCPScan) (hok : DHCPs lines = .ok fin) (l k v : GoStr)
    (hl : l ∈ lines) (hmatch : reColonLineMatch l = some (k, v))
    (hkey : goToLower k = gs "networkname") :
    (fin.find v).isSome :=
  dhcpRun_name_found lines dhcpInit fin hok dhcpInit_WF l k v hl hmatch hkey

/-- Witness for C2 (the spec's two-record scenario): both records are
present, keyed by their names, although the second has no trailing blank
line; the `Dhcpd IP` alias populated the IPv4 field of the first record. -/
theorem c2_witness :
    DHCPs dhcpTwoRecListing = .ok dhcpTwoRecState
    ∧ (dhcpTwoRecState.find (gs "net2")).isSome
    ∧ (dhcpTwoRecState.find (gs "net1")).isSome
    ∧ dhcpTwoRecState.find (gs "net1")
        = some { NetworkName := gs "net1", IPv4IP := gs "10.0.2.2" } := by
  refine ⟨by rfl, ?_, ?_, by decide⟩
  · exact c2_amended_dhcps_keeps_last_record dhcpTwoRecListing dhcpTwoRecState
      (by rfl) (gs "NetworkName:    net2") (gs "NetworkName") (gs "net2")
      (by decide) (by decide) (by decide)
  · exact c2_amended_dhcps_keeps_last_record dhcpTwoRecListing dhcpTwoRecState
      (by rfl) (gs "NetworkName:    net1") (gs "NetworkName") (gs "net1")
      (by decide) (by decide) (by decide)

/-- **C3, counterexample.** `NATNets` performs no duplicate check: a
listing with two blank-terminated records both named `x` parses without
error and the second record silently overwrites the first (the `Enabled`
value of the first record is lost). -/
theorem c3_counterexample_natnets_overwrites :
    NATNets (fun _ => none)
        [gs "Name:    x", gs "Enabled: Yes", gs "", gs "Name:    x", gs ""]
      = .ok [(gs "x", { Name := gs "x" })] := by rfl

/-- **C3, amended.** For `DHCPs` the claim holds: a listing announcing the
same network name twice is a fatal parse error — the run cannot return a
map.  (`NATNets` instead silently keeps the later record.) -/
theorem c3_amended_dhcps_duplicate_fatal (lines : List GoStr)
    (hdup : ¬ (namesOf lines).Nodup) :
    ∃ e, DHCPs lines = .error e := by
  cases hres : DHCPs lines with
  | ok fin => exact absurd (DHCPs_ok_names_nodup lines fin hres) hdup
  | error e => exact ⟨e, rfl⟩

/-- Witness for C3: a concrete listing naming `a` twice makes `DHCPs`
fail. -/
theorem c3_witness :
    ∃ e, DHCPs [gs "NetworkName: a", gs "", gs "NetworkName: a"]
      = .error e :=
  c3_amended_dhcps_duplicate_fatal
    [gs "NetworkName: a", gs "", gs "NetworkName: a"] (by decide)

/-! ## UART codec (`uart.go`) -/

/-- A property map (`vmPropMap`), as produced by `vminfoAsPropMap`. -/
abbrev PropMap := List (GoStr × GoStr)

/-- The UART slot keys `uart1`..`uart4` (`UARTKey` constants). -/
def uartKeys : List GoStr := [gs "uart1", gs "uart2", gs "uart3", gs "uart4"]

/-- `UARTKey.IsSupportedKey`. -/
def isSupportedKey (k : GoStr) : Bool :=
  k = gs "uart1" || k = gs "uart2" || k = gs "uart3" || k = gs "uart4"

/-- Aggregated error vocabulary of the UART codec. -/
inductive UErr where
  | badUartValueFormat (v : GoStr)
  | badIOBaseOrIRQ (v : GoStr)
  | badModeFormat (modeName modeValue : GoStr)
  | unsupportedMode (m v : GoStr)
  | unsupportedType (t : GoStr)
  | badRank (r : Nat)
  | unsupportedKey (k : GoStr)
  | modeStrUnsupported (m : GoStr)
  | portIrqMismatch (p i : GoStr)
  | scanPortFailed (p : GoStr)
  | parseIrqFailed (i : GoStr)
deriving DecidableEq, Repr

/-- `UARTKey.ToRank` — panics (`panic(...)`) on an unknown key. -/
def toRankRes (k : GoStr) : GoRes UErr Nat :=
  if k = gs "uart1" then .ok 1
  else if k = gs "uart2" then .ok 2
  else if k = gs "uart3" then .ok 3
  else if k = gs "uart4" then .ok 4
  else .panicked

/-- `UARTKeyFromRank` — an ordinary error on an unknown rank. -/
def uartKeyFromRank (r : Nat) : GoRes UErr GoStr :=
  if r = 1 then .ok (gs "uart1")
  else if r = 2 then .ok (gs "uart2")
  else if r = 3 then .ok (gs "uart3")
  else if r = 4 then .ok (gs "uart4")
  else .err (.badRank r)

/-- `BasicSerialComConfig`: I/O base (`Port`) and `IRQ`, Go `uint`s. -/
structure BasicSerialComConfig where
  Port : Nat := 0
  IRQ : Nat := 0
deriving DecidableEq, Repr

/-- `UART` (source `uart.go`).  The Go field `Type` is spelled `Typ` here
(`Type` is reserved in Lean); `UARTType` and `UARTMode` are string
typedefs in the source, kept as `GoStr`. -/
structure UART where
  ComConfig : BasicSerialComConfig := {}
  Typ : GoStr := []
  Mode : GoStr := []
  ModeData : GoStr := []
  Key : GoStr := []
deriving DecidableEq, Repr

/-- `UART.IsOff`: the zero com-config pair. -/
def UART.IsOff (u : UART) : Bool := u.ComConfig = {}

/-- `UARTType.IsSupportedUARTType`. -/
def isSupportedUARTType (t : GoStr) : Bool :=
  t = gs "16450" || t = gs "16550A" || t = gs "16750"

/-- The six supported UART modes. -/
def isSupportedUARTMode (m : GoStr) : Bool :=
  m = gs "server" || m = gs "client" || m = gs "tcpserver"
    || m = gs "tcpclient" || m = gs "file" || m = gs "disconnected"

/-- `UARTModeFromStringIfSupported` (source `uart.go`): note that the
source maps the string `"client"` to `UARTModeServer`. -/
def uartModeFromStringIfSupported (m : GoStr) : GoRes UErr GoStr :=
  if m = gs "server" then .ok (gs "server")
  else if m = gs "client" then .ok (gs "server")
  else if m = gs "tcpserver" then .ok (gs "tcpserver")
  else if m = gs "tcpclient" then .ok (gs "tcpclient")
  else if m = gs "file" then .ok (gs "file")
  else if m = gs "disconnected" then .ok (gs "disconnected")
  else .err (.modeStrUnsupported m)

/-- `BasicSerialComConfig.initFromVMInfoValue` (source `uart.go`): split on
the comma, then `splits[0][2:]` — Go slicing panics when the first part is
shorter than two bytes, and no check is made that the skipped prefix is
`0x` — then `ParseUint(..., 16, 64)` and `ParseUint(..., 10, 32)`. -/
def initFromVMInfoValue (v : GoStr) : GoRes UErr BasicSerialComConfig :=
  if (splitCh ',' v).length = 2 then
    if ((splitCh ',' v).getD 0 []).length < 2 then .panicked
    else
      match goParseHex64 (((splitCh ',' v).getD 0 []).drop 2),
          goParseDec32 ((splitCh ',' v).getD 1 []) with
      | some iob, some irq => .ok { Port := iob, IRQ := irq }
      | some _, none => .err (.badIOBaseOrIRQ v)
      | none, _ => .err (.badIOBaseOrIRQ v)
  else .err (.badUartValueFormat v)

/-- `UART.commandParameterUartN`: `--uart<N> off` or
`--uart<N> 0x%04x %d`. -/
def commandParameterUartN (u : UART) : GoRes UErr (GoStr × GoStr) :=
  (toRankRes u.Key).bind fun r =>
    if u.IsOff then .ok (gs "--uart" ++ decStr r, gs "off")
    else .ok (gs "--uart" ++ decStr r,
      gs "0x" ++ fmtHex04 u.ComConfig.Port ++ [' '] ++ decStr u.ComConfig.IRQ)

/-- `UART.commandParameterUARTModeN`: empty for an off slot; mode
`disconnected` emits alone, any other mode appends its mode data. -/
def commandParameterUARTModeN (u : UART) : GoRes UErr (GoStr × GoStr) :=
  if u.IsOff then .ok ([], [])
  else
    (toRankRes u.Key).bind fun r =>
      if u.Mode = gs "disconnected" then
        .ok (gs "--uartmode" ++ decStr r, gs "disconnected")
      else .ok (gs "--uartmode" ++ decStr r, u.Mode ++ [' '] ++ u.ModeData)

/-- `UART.commandParameterUARTTypeN`: empty for an off slot. -/
def commandParameterUARTTypeN (u : UART) : GoRes UErr (GoStr × GoStr) :=
  if u.IsOff then .ok ([], [])
  else (toRankRes u.Key).bind fun r => .ok (gs "--uarttype" ++ decStr r, u.Typ)

/-- Emission of one `(cmdName, cmdValue)` pair in `commandParameters`:
skipped when the name is empty, otherwise the name followed by the value
split on spaces. -/
def emitCmdPair (p : GoStr × GoStr) : List GoStr :=
  if p.1 = [] then [] else p.1 :: splitCh ' ' p.2

/-- `UART.commandParameters` (source `uart.go`): `validate` always
succeeds; the three parameter functions are emitted in order. -/
def commandParameters (u : UART) : GoRes UErr (List GoStr) :=
  (commandParameterUartN u).bind fun p1 =>
    (commandParameterUARTModeN u).bind fun p2 =>
      (commandParameterUARTTypeN u).bind fun p3 =>
        .ok (emitCmdPair p1 ++ emitCmdPair p2 ++ emitCmdPair p3)

/-- `UART.initUARTModeFromVMInfoMap` (source `uart.go`). -/
def initUARTModeFromVMInfoMap (u : UART) (m : PropMap) : GoRes UErr UART :=
  (toRankRes u.Key).bind fun r =>
    match alookup m (gs "uartmode" ++ decStr r) with
    | none => .ok u
    | some mv =>
      if mv = gs "disconnected" then .ok { u with Mode := gs "disconnected" }
      else
        if (splitCh ',' mv).length = 2 then
          if ((splitCh ',' mv).getD 0 []) = gs "client"
              ∨ ((splitCh ',' mv).getD 0 []) = gs "disconnected"
              ∨ ((splitCh ',' mv).getD 0 []) = gs "file"
              ∨ ((splitCh ',' mv).getD 0 []) = gs "server"
              ∨ ((splitCh ',' mv).getD 0 []) = gs "tcpclient"
              ∨ ((splitCh ',' mv).getD 0 []) = gs "tcpserver" then
            .ok { u with Mode := (splitCh ',' mv).getD 0 [],
                         ModeData := (splitCh ',' mv).getD 1 [] }
          else .err (.unsupportedMode ((splitCh ',' mv).getD 0 []) mv)
        else .err (.badModeFormat (gs "uartmode" ++ decStr r) mv)

/-- `UART.initUARTTypeFromVMInfoMap` (source `uart.go`). -/
def initUARTTypeFromVMInfoMap (u : UART) (m : PropMap) : GoRes UErr UART :=
  (toRankRes u.Key).bind fun r =>
    match alookup m (gs "uarttype" ++ decStr r) with
    | none => .ok u
    | some tv =>
      if isSupportedUARTType tv then .ok { u with Typ := tv }
      else .err (.unsupportedType tv)

/-- The loop body of `NewUARTs` for one rank. -/
def buildUART (m : PropMap) (i : Nat) : GoRes UErr UART :=
  (uartKeyFromRank i).bind fun key =>
    match alookup m key with
    | none => .ok { Key := key }
    | some uv =>
      if uv = gs "off" then .ok { Key := key }
      else
        (initFromVMInfoValue uv).bind fun cc =>
          (initUARTModeFromVMInfoMap { Key := key, ComConfig := cc } m).bind
            fun u2 => initUARTTypeFromVMInfoMap u2 m

/-- `NewUARTs` (source `uart.go`): slots 1..4 in order, aborting on the
first error. -/
def NewUARTs (m : PropMap) : GoRes UErr (List UART) :=
  (buildUART m 1).bind fun u1 =>
    (buildUART m 2).bind fun u2 =>
      (buildUART m 3).bind fun u3 =>
        (buildUART m 4).bind fun u4 => .ok [u1, u2, u3, u4]

/-- `toVMInfoValueUARTn` (repo test helper): `0x%04x,%d`. -/
def toVMInfoValueUARTn (cc : BasicSerialComConfig) : GoStr :=
  gs "0x" ++ fmtHex04 cc.Port ++ [','] ++ decStr cc.IRQ

/-- The key/value (vminfo) representation of a serialized non-off UART at
rank `r`: `uart<N>` carries `toVMInfoValueUARTn`; `uartmode<N>` carries
the `commandParameterUARTModeN` value with the listing separator (comma,
as in `uartmode1="file,/tmp/ubuntu-focal-1"`); `uarttype<N>` carries the
type. -/
def uartVMInfoProps (u : UART) (r : Nat) : PropMap :=
  [(gs "uart" ++ decStr r, toVMInfoValueUARTn u.ComConfig),
   (gs "uartmode" ++ decStr r,
     if u.Mode = gs "disconnected" then gs "disconnected"
     else u.Mode ++ [','] ++ u.ModeData),
   (gs "uarttype" ++ decStr r, u.Typ)]

/-! ### Round-trip of the UART codec -/

theorem append_right_cancel_ne (p1 p2 d : GoStr) (h : p1 ≠ p2) :
    p1 ++ d ≠ p2 ++ d := by
  intro hc
  exact h ((List.append_left_inj d).1 hc)

theorem comma_not_mem_supported_mode (m : GoStr)
    (h : isSupportedUARTMode m = true) : ',' ∉ m := by
  rw [isSupportedUARTMode] at h
  simp only [Bool.or_eq_true, decide_eq_true_eq] at h
  rcases h with ((((h | h) | h) | h) | h) | h <;> subst h <;> decide

theorem fmtHex04_length (n : Nat) : 4 ≤ (fmtHex04 n).length := by
  rw [fmtHex04, padZero]
  simp only [List.length_append, List.length_replicate]
  omega

theorem toVMInfoValueUARTn_ne_off (cc : BasicSerialComConfig) :
    toVMInfoValueUARTn cc ≠ gs "off" := by
  intro h
  have hlen := congrArg List.length h
  rw [toVMInfoValueUARTn] at hlen
  simp only [List.length_append] at hlen
  have h4 : 4 ≤ (fmtHex04 cc.Port).length := fmtHex04_length cc.Port
  have hoff : (gs "off").length = 3 := by decide
  have h0x : (gs "0x").length = 2 := by decide
  have hcm : ([','] : GoStr).length = 1 := by decide
  rw [hoff, h0x, hcm] at hlen
  omega

theorem splitCh_toVMInfoValueUARTn (cc : BasicSerialComConfig) :
    splitCh ',' (toVMInfoValueUARTn cc)
      = ['0' :: 'x' :: fmtHex04 cc.Port, decStr cc.IRQ] := by
  have ha : ',' ∉ ('0' :: 'x' :: fmtHex04 cc.Port : GoStr) := by
    intro hm
    rcases List.mem_cons.1 hm with h | hm2
    · exact absurd h (by decide)
    · rcases List.mem_cons.1 hm2 with h | hm3
      · exact absurd h (by decide)
      · exact isHexDigit_ne_comma ',' (mem_fmtHex04_isHexDigit cc.Port ',' hm3) rfl
  have hb : splitCh ',' (decStr cc.IRQ) = [decStr cc.IRQ] :=
    splitCh_of_not_mem ',' (decStr cc.IRQ)
      (fun hm => isDecDigit_ne_comma ',' (mem_decStr_isDecDigit cc.IRQ ',' hm) rfl)
  have hshape : toVMInfoValueUARTn cc
      = ('0' :: 'x' :: fmtHex04 cc.Port : GoStr) ++ ',' :: decStr cc.IRQ := by
    rw [toVMInfoValueUARTn]
    simp [gs, List.append_assoc]
  rw [hshape, splitCh_append ',' _ _ ha, hb]

theorem initFromVMInfoValue_round (cc : BasicSerialComConfig)
    (hp : cc.Port < 2 ^ 64) (hi : cc.IRQ < 2 ^ 32) :
    initFromVMInfoValue (toVMInfoValueUARTn cc) = .ok cc := by
  rw [initFromVMInfoValue, splitCh_toVMInfoValueUARTn]
  rw [if_pos (show (['0' :: 'x' :: fmtHex04 cc.Port, decStr cc.IRQ]
    : List GoStr).length = 2 from rfl)]
  rw [show (['0' :: 'x' :: fmtHex04 cc.Port, decStr cc.IRQ]
    : List GoStr).getD 0 [] = '0' :: 'x' :: fmtHex04 cc.Port from rfl]
  rw [if_neg (show ¬ (('0' :: 'x' :: fmtHex04 cc.Port : GoStr).length < 2) from by
    simp only [List.length_cons]
    omega)]
  rw [show (['0' :: 'x' :: fmtHex04 cc.Port, decStr cc.IRQ]
    : List GoStr).getD 1 [] = decStr cc.IRQ from rfl]
  rw [show (('0' :: 'x' :: fmtHex04 cc.Port : GoStr)).drop 2 = fmtHex04 cc.Port from rfl]
  rw [goParseHex64_fmtHex04 cc.Port hp, goParseDec32_decStr cc.IRQ hi]

theorem buildUART_roundtrip (u : UART) (r : Nat)
    (hkeyform : u.Key = gs "uart" ++ decStr r)
    (hrk : toRankRes u.Key = .ok r)
    (hkr : uartKeyFromRank r = .ok u.Key)
    (hport : u.ComConfig.Port < 2 ^ 64)
    (hirq : u.ComConfig.IRQ < 2 ^ 32)
    (htyp : isSupportedUARTType u.Typ = true)
    (hmode : isSupportedUARTMode u.Mode = true)
    (hcomma : ',' ∉ u.ModeData)
    (hdisc : u.Mode = gs "disconnected" → u.ModeData = []) :
    buildUART (uartVMInfoProps u r) r = .ok u := by
  obtain ⟨cc, ty, mo, md, k⟩ := u
  simp only at hkeyform hrk hport hirq htyp hmode hcomma hdisc
  rw [buildUART, hkr, GoRes.bind_ok]
  have hl1 : alookup (uartVMInfoProps ⟨cc, ty, mo, md, k⟩ r) k
      = some (toVMInfoValueUARTn cc) := by
    rw [uartVMInfoProps]
    simp only
    rw [alookup, if_pos hkeyform.symm]
  simp only [hl1]
  rw [if_neg (toVMInfoValueUARTn_ne_off cc)]
  rw [initFromVMInfoValue_round cc hport hirq, GoRes.bind_ok]
  have hl2 : alookup (uartVMInfoProps ⟨cc, ty, mo, md, k⟩ r)
      (gs "uartmode" ++ decStr r)
      = some (if mo = gs "disconnected" then gs "disconnected"
          else mo ++ [','] ++ md) := by
    rw [uartVMInfoProps]
    simp only
    rw [alookup, if_neg (append_right_cancel_ne _ _ _ (by decide)),
      alookup, if_pos rfl]
  have hl3 : alookup (uartVMInfoProps ⟨cc, ty, mo, md, k⟩ r)
      (gs "uarttype" ++ decStr r) = some ty := by
    rw [uartVMInfoProps]
    simp only
    rw [alookup, if_neg (append_right_cancel_ne _ _ _ (by decide)),
      alookup, if_neg (append_right_cancel_ne _ _ _ (by decide)),
      alookup, if_pos rfl]
  rw [initUARTModeFromVMInfoMap]
  simp only
  rw [hrk, GoRes.bind_ok, hl2]
  simp only
  by_cases hdm : mo = gs "disconnected"
  · rw [if_pos hdm, if_pos rfl, GoRes.bind_ok]
    rw [initUARTTypeFromVMInfoMap]
    simp only
    rw [hrk, GoRes.bind_ok, hl3]
    simp only
    rw [if_pos htyp]
    rw [hdm, hdisc hdm]
  · rw [if_neg hdm]
    have hcmem : ',' ∈ (mo ++ [','] ++ md : GoStr) := by simp
    have hne : (mo ++ [','] ++ md : GoStr) ≠ gs "disconnected" := by
      intro he
      rw [he] at hcmem
      exact absurd hcmem (by decide)
    rw [if_neg hne]
    have hform : (mo ++ [','] ++ md : GoStr) = mo ++ ',' :: md := by
      rw [List.append_assoc]
      rfl
    have hsp : splitCh ',' (mo ++ [','] ++ md) = [mo, md] := by
      rw [hform, splitCh_append ',' mo md (comma_not_mem_supported_mode mo hmode),
        splitCh_of_not_mem ',' md hcomma]
    simp only [hsp]
    rw [if_pos (show ([mo, md] : List GoStr).length = 2 from rfl)]
    rw [show ([mo, md] : List GoStr).getD 0 [] = mo from rfl,
      show ([mo, md] : List GoStr).getD 1 [] = md from rfl]
    have hcond : mo = gs "client" ∨ mo = gs "disconnected" ∨ mo = gs "file"
        ∨ mo = gs "server" ∨ mo = gs "tcpclient" ∨ mo = gs "tcpserver" := by
      rw [isSupportedUARTMode] at hmode
      simp only [Bool.or_eq_true, decide_eq_true_eq] at hmode
      tauto
    rw [if_pos hcond, GoRes.bind_ok]
    rw [initUARTTypeFromVMInfoMap]
    simp only
    rw [hrk, GoRes.bind_ok, hl3]
    simp only
    rw [if_pos htyp]

/-- **C4.** Round-trip: serializing a non-off UART (any supported slot key,
type, and mode, with mode data in the mode's shape: comma-free, and empty
for `disconnected`) to its key/value representation and decoding it with
`NewUARTs` yields the original UART in its slot. -/
theorem c4_uart_roundtrip (u : UART)
    (hkey : isSupportedKey u.Key = true)
    (hoff : u.IsOff = false)
    (hport : u.ComConfig.Port < 2 ^ 64)
    (hirq : u.ComConfig.IRQ < 2 ^ 32)
    (htyp : isSupportedUARTType u.Typ = true)
    (hmode : isSupportedUARTMode u.Mode = true)
    (hcomma : ',' ∉ u.ModeData)
    (hdisc : u.Mode = gs "disconnected" → u.ModeData = []) :
    ∃ r uarts, toRankRes u.Key = .ok r
      ∧ NewUARTs (uartVMInfoProps u r) = .ok uarts
      ∧ uarts.getD (r - 1) {} = u := by
  rw [isSupportedKey] at hkey
  simp only [Bool.or_eq_true, decide_eq_true_eq] at hkey
  rcases hkey with ((h | h) | h) | h
  · refine ⟨1, [u, { Key := gs "uart2" }, { Key := gs "uart3" },
      { Key := gs "uart4" }], by rw [h]; rfl, ?_, rfl⟩
    have hb1 := buildUART_roundtrip u 1 (by rw [h]; rfl) (by rw [h]; rfl) (by rw [h]; rfl)
      hport hirq htyp hmode hcomma hdisc
    have hb2 : buildUART (uartVMInfoProps u 1) 2 = .ok { Key := gs "uart2" } := rfl
    have hb3 : buildUART (uartVMInfoProps u 1) 3 = .ok { Key := gs "uart3" } := rfl
    have hb4 : buildUART (uartVMInfoProps u 1) 4 = .ok { Key := gs "uart4" } := rfl
    rw [NewUARTs, hb1, GoRes.bind_ok, hb2, GoRes.bind_ok, hb3, GoRes.bind_ok,
      hb4, GoRes.bind_ok]
  · refine ⟨2, [{ Key := gs "uart1" }, u, { Key := gs "uart3" },
      { Key := gs "uart4" }], by rw [h]; rfl, ?_, rfl⟩
    have hb2 := buildUART_roundtrip u 2 (by rw [h]; rfl) (by rw [h]; rfl) (by rw [h]; rfl)
      hport hirq htyp hmode hcomma hdisc
    have hb1 : buildUART (uartVMInfoProps u 2) 1 = .ok { Key := gs "uart1" } := rfl
    have hb3 : buildUART (uartVMInfoProps u 2) 3 = .ok { Key := gs "uart3" } := rfl
    have hb4 : buildUART (uartVMInfoProps u 2) 4 = .ok { Key := gs "uart4" } := rfl
    rw [NewUARTs, hb1, GoRes.bind_ok, hb2, GoRes.bind_ok, hb3, GoRes.bind_ok,
      hb4, GoRes.bind_ok]
  · refine ⟨3, [{ Key := gs "uart1" }, { Key := gs "uart2" }, u,
      { Key := gs "uart4" }], by rw [h]; rfl, ?_, rfl⟩
    have hb3 := buildUART_roundtrip u 3 (by rw [h]; rfl) (by rw [h]; rfl) (by rw [h]; rfl)
      hport hirq htyp hmode hcomma hdisc
    have hb1 : buildUART (uartVMInfoProps u 3) 1 = .ok { Key := gs "uart1" } := rfl
    have hb2 : buildUART (uartVMInfoProps u 3) 2 = .ok { Key := gs "uart2" } := rfl
    have hb4 : buildUART (uartVMInfoProps u 3) 4 = .ok { Key := gs "uart4" } := rfl
    rw [NewUARTs, hb1, GoRes.bind_ok, hb2, GoRes.bind_ok, hb3, GoRes.bind_ok,
      hb4, GoRes.bind_ok]
  · refine ⟨4, [{ Key := gs "uart1" }, { Key := gs "uart2" },
      { Key := gs "uart3" }, u], by rw [h]; rfl, ?_, rfl⟩
    have hb4 := buildUART_roundtrip u 4 (by rw [h]; rfl) (by rw [h]; rfl) (by rw [h]; rfl)
      hport hirq htyp hmode hcomma hdisc
    have hb1 : buildUART (uartVMInfoProps u 4) 1 = .ok { Key := gs "uart1" } := rfl
    have hb2 : buildUART (uartVMInfoProps u 4) 2 = .ok { Key := gs "uart2" } := rfl
    have hb3 : buildUART (uartVMInfoProps u 4) 3 = .ok { Key := gs "uart3" } := rfl
    rw [NewUARTs, hb1, GoRes.bind_ok, hb2, GoRes.bind_ok, hb3, GoRes.bind_ok,
      hb4, GoRes.bind_ok]

/-- A concrete non-off UART for the round-trip witness: slot 2, type
16550A, mode `file` with a path as mode data, COM2 base and IRQ. -/
def c4Uart : UART :=
  { ComConfig := { Port := 760, IRQ := 3 }, Typ := gs "16550A",
    Mode := gs "file", ModeData := gs "/tmp/uart1", Key := gs "uart2" }

/-- Witness for C4 at `c4Uart`. -/
theorem c4_witness :
    ∃ r uarts, toRankRes c4Uart.Key = .ok r
      ∧ NewUARTs (uartVMInfoProps c4Uart r) = .ok uarts
      ∧ uarts.getD (r - 1) {} = c4Uart :=
  c4_uart_roundtrip c4Uart (by decide) (by decide) (by decide) (by decide)
    (by decide) (by decide) (by decide) (by decide)

/-- **C5.** The claim says any `uart<N>` value other than `off` that does
not match `0x<hex>,<decimal>` is a fatal parse error, neither succeeding
nor crashing.  The code (`initFromVMInfoValue`) skips two bytes without
checking that they are `0x` and without checking the length first:
`uart1="zz10,3"` parses successfully (I/O base `0x10`), and
`uart1="x,1"` panics (slice bound out of range), both contradicting the
documented `<IO Base hex>,<IRQ>` contract in the function's own error
message. -/
theorem c5_uart_malformed_value_code_bug :
    NewUARTs [(gs "uart1", gs "zz10,3")]
      = .ok [{ ComConfig := { Port := 16, IRQ := 3 }, Key := gs "uart1" },
             { Key := gs "uart2" }, { Key := gs "uart3" },
             { Key := gs "uart4" }]
    ∧ NewUARTs [(gs "uart1", gs "x,1")] = .panicked := by
  constructor
  · rfl
  · rfl

/-! ### Serialization shape (C8) -/

theorem space_not_mem_supported_mode (m : GoStr)
    (h : isSupportedUARTMode m = true) : ' ' ∉ m := by
  rw [isSupportedUARTMode] at h
  simp only [Bool.or_eq_true, decide_eq_true_eq] at h
  rcases h with ((((h | h) | h) | h) | h) | h <;> subst h <;> decide

theorem space_not_mem_supported_type (t : GoStr)
    (h : isSupportedUARTType t = true) : ' ' ∉ t := by
  rw [isSupportedUARTType] at h
  simp only [Bool.or_eq_true, decide_eq_true_eq] at h
  rcases h with (h | h) | h <;> subst h <;> decide

theorem splitCh_space_uartValue (cc : BasicSerialComConfig) :
    splitCh ' ' (gs "0x" ++ fmtHex04 cc.Port ++ [' '] ++ decStr cc.IRQ)
      = [gs "0x" ++ fmtHex04 cc.Port, decStr cc.IRQ] := by
  have ha : ' ' ∉ (gs "0x" ++ fmtHex04 cc.Port : GoStr) := by
    intro hm
    rcases List.mem_append.1 hm with h | h
    · exact absurd h (by decide)
    · exact isHexDigit_ne_space ' ' (mem_fmtHex04_isHexDigit cc.Port ' ' h) rfl
  have hb : splitCh ' ' (decStr cc.IRQ) = [decStr cc.IRQ] :=
    splitCh_of_not_mem ' ' (decStr cc.IRQ)
      (fun hm => isDecDigit_ne_space ' ' (mem_decStr_isDecDigit cc.IRQ ' ' hm) rfl)
  have hform : (gs "0x" ++ fmtHex04 cc.Port ++ [' '] ++ decStr cc.IRQ : GoStr)
      = (gs "0x" ++ fmtHex04 cc.Port) ++ ' ' :: decStr cc.IRQ := by
    rw [List.append_assoc]
    rfl
  rw [hform, splitCh_append ' ' _ _ ha, hb]

theorem gs_append_ne_nil (s : String) (x : GoStr) (hs : gs s ≠ []) :
    gs s ++ x ≠ [] := by
  intro hc
  rcases List.append_eq_nil.1 hc with ⟨h1, _⟩
  exact hs h1

/-- **C8.** Serialization of a single UART slot: an off slot emits exactly
`--uart<N> off` and no mode/type fragments; a non-off slot (with a
supported mode and type and space-free mode data, so that the value splits
into the stated tokens) emits `--uart<N>`, the I/O base zero-padded to 4
hex digits, the IRQ in decimal, then the `--uartmode<N>` fragment (mode
`disconnected` alone; any other mode followed by its mode-data token) and
the `--uarttype<N>` fragment. -/
theorem emitCmdPair_pair (n v : GoStr) :
    emitCmdPair (n, v) = if n = [] then [] else n :: splitCh ' ' v := rfl

theorem c8_uart_serialization_shape (u : UART) (r : Nat)
    (hrk : toRankRes u.Key = .ok r) :
    (u.IsOff = true →
      commandParameters u = .ok [gs "--uart" ++ decStr r, gs "off"])
    ∧ (u.IsOff = false → isSupportedUARTMode u.Mode = true →
        isSupportedUARTType u.Typ = true → ' ' ∉ u.ModeData →
        commandParameters u
          = .ok ([gs "--uart" ++ decStr r,
                  gs "0x" ++ fmtHex04 u.ComConfig.Port,
                  decStr u.ComConfig.IRQ]
              ++ (if u.Mode = gs "disconnected"
                  then [gs "--uartmode" ++ decStr r, gs "disconnected"]
                  else [gs "--uartmode" ++ decStr r, u.Mode, u.ModeData])
              ++ [gs "--uarttype" ++ decStr r, u.Typ])) := by
  have hdec_ne : (gs "--uart" ++ decStr r : GoStr) ≠ [] :=
    gs_append_ne_nil _ _ (by decide)
  have hmode_ne : (gs "--uartmode" ++ decStr r : GoStr) ≠ [] :=
    gs_append_ne_nil _ _ (by decide)
  have htype_ne : (gs "--uarttype" ++ decStr r : GoStr) ≠ [] :=
    gs_append_ne_nil _ _ (by decide)
  constructor
  · intro hoff
    have hp1 : commandParameterUartN u = .ok (gs "--uart" ++ decStr r, gs "off") := by
      rw [commandParameterUartN, hrk, GoRes.bind_ok, if_pos hoff]
    have hp2 : commandParameterUARTModeN u = .ok ([], []) := by
      rw [commandParameterUARTModeN, if_pos hoff]
    have hp3 : commandParameterUARTTypeN u = .ok ([], []) := by
      rw [commandParameterUARTTypeN, if_pos hoff]
    rw [commandParameters, hp1, GoRes.bind_ok, hp2, GoRes.bind_ok, hp3,
      GoRes.bind_ok]
    have e1 : emitCmdPair (gs "--uart" ++ decStr r, gs "off")
        = [gs "--uart" ++ decStr r, gs "off"] := by
      rw [emitCmdPair_pair, if_neg hdec_ne,
        show splitCh ' ' (gs "off") = [gs "off"] from by decide]
    have e2 : emitCmdPair (([] : GoStr), ([] : GoStr)) = [] := rfl
    rw [e1, e2]
    simp
  · intro hoff hmode htyp hdata
    have hnoff : ¬ (u.IsOff = true) := by simp [hoff]
    have hp1 : commandParameterUartN u
        = .ok (gs "--uart" ++ decStr r,
            gs "0x" ++ fmtHex04 u.ComConfig.Port ++ [' ']
              ++ decStr u.ComConfig.IRQ) := by
      rw [commandParameterUartN, hrk, GoRes.bind_ok, if_neg hnoff]
    have hp3 : commandParameterUARTTypeN u
        = .ok (gs "--uarttype" ++ decStr r, u.Typ) := by
      rw [commandParameterUARTTypeN, if_neg hnoff, hrk, GoRes.bind_ok]
    have hsp3 : splitCh ' ' u.Typ = [u.Typ] :=
      splitCh_of_not_mem ' ' u.Typ (space_not_mem_supported_type u.Typ htyp)
    have e1 : emitCmdPair (gs "--uart" ++ decStr r,
        gs "0x" ++ fmtHex04 u.ComConfig.Port ++ [' '] ++ decStr u.ComConfig.IRQ)
        = [gs "--uart" ++ decStr r, gs "0x" ++ fmtHex04 u.ComConfig.Port,
           decStr u.ComConfig.IRQ] := by
      rw [emitCmdPair_pair, if_neg hdec_ne, splitCh_space_uartValue u.ComConfig]
    have e3 : emitCmdPair (gs "--uarttype" ++ decStr r, u.Typ)
        = [gs "--uarttype" ++ decStr r, u.Typ] := by
      rw [emitCmdPair_pair, if_neg htype_ne, hsp3]
    by_cases hdm : u.Mode = gs "disconnected"
    · have hp2 : commandParameterUARTModeN u
          = .ok (gs "--uartmode" ++ decStr r, gs "disconnected") := by
        rw [commandParameterUARTModeN, if_neg hnoff, hrk, GoRes.bind_ok,
          if_pos hdm]
      have e2 : emitCmdPair (gs "--uartmode" ++ decStr r, gs "disconnected")
          = [gs "--uartmode" ++ decStr r, gs "disconnected"] := by
        rw [emitCmdPair_pair, if_neg hmode_ne,
          show splitCh ' ' (gs "disconnected") = [gs "disconnected"] from by decide]
      rw [commandParameters, hp1, GoRes.bind_ok, hp2, GoRes.bind_ok, hp3,
        GoRes.bind_ok, e1, e2, e3, if_pos hdm]
    · have hp2 : commandParameterUARTModeN u
          = .ok (gs "--uartmode" ++ decStr r, u.Mode ++ [' '] ++ u.ModeData) := by
        rw [commandParameterUARTModeN, if_neg hnoff, hrk, GoRes.bind_ok,
          if_neg hdm]
      have hsp2 : splitCh ' ' (u.Mode ++ [' '] ++ u.ModeData)
          = [u.Mode, u.ModeData] := by
        have hform : (u.Mode ++ [' '] ++ u.ModeData : GoStr)
            = u.Mode ++ ' ' :: u.ModeData := by
          rw [List.append_assoc]
          rfl
        rw [hform, splitCh_append ' ' _ _ (space_not_mem_supported_mode u.Mode hmode),
          splitCh_of_not_mem ' ' u.ModeData hdata]
      have e2 : emitCmdPair (gs "--uartmode" ++ decStr r,
          u.Mode ++ [' '] ++ u.ModeData)
          = [gs "--uartmode" ++ decStr r, u.Mode, u.ModeData] := by
        rw [emitCmdPair_pair, if_neg hmode_ne, hsp2]
      rw [commandParameters, hp1, GoRes.bind_ok, hp2, GoRes.bind_ok, hp3,
        GoRes.bind_ok, e1, e2, e3, if_neg hdm]

/-- Witness for C8: the off slot `uart1` and a non-off `uart3` in
`tcpserver` mode. -/
theorem c8_witness :
    commandParameters { Key := gs "uart1" }
      = .ok [gs "--uart1", gs "off"]
    ∧ commandParameters
        { Key := gs "uart3", ComConfig := { Port := 760, IRQ := 3 },
          Typ := gs "16750", Mode := gs "tcpserver", ModeData := gs "6666" }
      = .ok [gs "--uart3", gs "0x02f8", gs "3", gs "--uartmode3",
             gs "tcpserver", gs "6666", gs "--uarttype3", gs "16750"] := by
  constructor
  · have h := (c8_uart_serialization_shape { Key := gs "uart1" } 1 (by rfl)).1
      (by decide)
    rw [h]
    rfl
  · have h := (c8_uart_serialization_shape
      { Key := gs "uart3", ComConfig := { Port := 760, IRQ := 3 },
        Typ := gs "16750", Mode := gs "tcpserver", ModeData := gs "6666" } 3
      (by rfl)).2 (by decide) (by decide) (by decide) (by decide)
    rw [h]
    rfl

/-! ### `NewUART` construction from raw strings (C9) -/

/-- `fmt.Sscanf(portStr, "0x%x", &port)`: the literal `0x`, then at least
one hex digit (the maximal hex-digit run), with a range error — modelled
as `none` — when the value overflows the 64-bit `uint`. -/
def goSscanfHex0x (s : GoStr) : Option Nat :=
  match s with
  | '0' :: 'x' :: rest =>
    if rest.takeWhile isHexDigit = [] then none
    else if strVal 16 (rest.takeWhile isHexDigit) < 2 ^ 64 then
      some (strVal 16 (rest.takeWhile isHexDigit))
    else none
  | _ => none

/-- The mode picked by `NewUART` together with the accumulated mode
errors: on an unsupported mode string, the mode stays empty and the error
is recorded. -/
def newUARTModePick (modeStr : GoStr) : GoStr × List UErr :=
  match uartModeFromStringIfSupported modeStr with
  | .ok m => (m, [])
  | .err e => ([], [e])
  | .panicked => ([], [])

/-- The port/IRQ pair picked by `NewUART` with its accumulated errors:
both parsed when both strings are non-empty (each failure recorded), a
mismatch error when exactly one is empty, nothing when both are empty. -/
def newUARTPortIrq (portStr irqStr : GoStr) : (Nat × Nat) × List UErr :=
  if portStr ≠ [] ∧ irqStr ≠ [] then
    ((goSscanfHex0x portStr |>.getD 0, goParseDec64 irqStr |>.getD 0),
      (if (goSscanfHex0x portStr).isNone then [UErr.scanPortFailed portStr]
       else [])
        ++ (if (goParseDec64 irqStr).isNone then [UErr.parseIrqFailed irqStr]
            else []))
  else if (portStr ≠ [] ∧ irqStr = []) ∨ (portStr = [] ∧ irqStr ≠ []) then
    ((0, 0), [UErr.portIrqMismatch portStr irqStr])
  else ((0, 0), [])

/-- The type errors accumulated by `NewUART` (the type field is set to the
raw string in all cases, matching `UARTTypeFromStringIfSupported`). -/
def newUARTTypeErrs (typeStr : GoStr) : List UErr :=
  if isSupportedUARTType typeStr then [] else [UErr.unsupportedType typeStr]

/-- `NewUART` (source `uart.go`): an unsupported key returns immediately
with a single error; afterwards mode, port/IRQ, and type failures are
accumulated into one combined multi-error. -/
def NewUART (keyStr typeStr portStr irqStr modeStr modeDataStr : GoStr) :
    Except (List UErr) UART :=
  if isSupportedKey keyStr then
    if (newUARTModePick modeStr).2 ++ (newUARTPortIrq portStr irqStr).2
        ++ newUARTTypeErrs typeStr = [] then
      .ok { Key := keyStr, Mode := (newUARTModePick modeStr).1,
            ModeData := modeDataStr,
            ComConfig := { Port := (newUARTPortIrq portStr irqStr).1.1,
                           IRQ := (newUARTPortIrq portStr irqStr).1.2 },
            Typ := typeStr }
    else
      .error ((newUARTModePick modeStr).2 ++ (newUARTPortIrq portStr irqStr).2
        ++ newUARTTypeErrs typeStr)
  else .error [.unsupportedKey keyStr]

/-- **C9, counterexample.** With an invalid key, an invalid type and an
invalid mode at once, `NewUART` reports only the key problem: the
unsupported key short-circuits, so not every validation failure is
collected. -/
theorem c9_counterexample_key_short_circuits :
    NewUART (gs "uart9") (gs "16551") [] [] (gs "pigeon") []
      = .error [.unsupportedKey (gs "uart9")] := by rfl

/-- The mode picked by `NewUART` on an unsupported mode string: the mode
stays empty and the single mode error is recorded. -/
theorem newUARTModePick_unsupported (modeStr : GoStr)
    (hmode : isSupportedUARTMode modeStr = false) :
    newUARTModePick modeStr = ([], [.modeStrUnsupported modeStr]) := by
  have hm2 : ¬ (isSupportedUARTMode modeStr = true) := by
    rw [hmode]
    exact Bool.false_ne_true
  rw [isSupportedUARTMode] at hm2
  simp only [Bool.or_eq_true, decide_eq_true_eq] at hm2
  push_neg at hm2
  obtain ⟨⟨⟨⟨⟨h1, h2⟩, h3⟩, h4⟩, h5⟩, h6⟩ := hm2
  rw [newUARTModePick, uartModeFromStringIfSupported,
    if_neg h1, if_neg h2, if_neg h3, if_neg h4, if_neg h5, if_neg h6]

theorem newUARTTypeErrs_unsupported (typeStr : GoStr)
    (htyp : isSupportedUARTType typeStr = false) :
    newUARTTypeErrs typeStr = [.unsupportedType typeStr] := by
  rw [newUARTTypeErrs, if_neg]
  rw [htyp]
  exact Bool.false_ne_true

/-- **C9, amended.** Type, mode, and port/IRQ validation failures are
accumulated into one combined error returned to the caller: with a
supported key, an unsupported mode, a failing port scan, a failing IRQ
parse, and an unsupported type are all reported at once; a port/IRQ
presence mismatch is likewise accumulated with the mode and type
failures; nothing is accumulated for empty port/IRQ strings.  An
unsupported key, however, fails fast and is reported alone. -/
theorem c9_amended_aggregation
    (keyStr typeStr portStr irqStr modeStr modeDataStr : GoStr) :
    (isSupportedKey keyStr = true → isSupportedUARTMode modeStr = false →
      portStr ≠ [] → irqStr ≠ [] →
      goSscanfHex0x portStr = none → goParseDec64 irqStr = none →
      isSupportedUARTType typeStr = false →
      NewUART keyStr typeStr portStr irqStr modeStr modeDataStr
        = .error [.modeStrUnsupported modeStr, .scanPortFailed portStr,
                  .parseIrqFailed irqStr, .unsupportedType typeStr])
    ∧ (isSupportedKey keyStr = true → isSupportedUARTMode modeStr = false →
      portStr ≠ [] →
      isSupportedUARTType typeStr = false →
      NewUART keyStr typeStr portStr [] modeStr modeDataStr
        = .error [.modeStrUnsupported modeStr, .portIrqMismatch portStr [],
                  .unsupportedType typeStr])
    ∧ (isSupportedKey keyStr = true → isSupportedUARTMode modeStr = false →
      isSupportedUARTType typeStr = false →
      NewUART keyStr typeStr [] [] modeStr modeDataStr
        = .error [.modeStrUnsupported modeStr, .unsupportedType typeStr])
    ∧ (isSupportedKey keyStr = false →
      NewUART keyStr typeStr portStr irqStr modeStr modeDataStr
        = .error [.unsupportedKey keyStr]) := by
  refine ⟨?_, ?_, ?_, ?_⟩
  · intro hkey hmode hp hi hscan hirq htyp
    have hmp := newUARTModePick_unsupported modeStr hmode
    have hpi : newUARTPortIrq portStr irqStr
        = ((0, 0), [.scanPortFailed portStr, .parseIrqFailed irqStr]) := by
      rw [newUARTPortIrq, if_pos (And.intro hp hi), hscan, hirq]
      rfl
    have hte := newUARTTypeErrs_unsupported typeStr htyp
    rw [NewUART, if_pos hkey, hmp, hpi, hte]
    rfl
  · intro hkey hmode hp htyp
    have hmp := newUARTModePick_unsupported modeStr hmode
    have hpi : newUARTPortIrq portStr []
        = ((0, 0), [.portIrqMismatch portStr []]) := by
      rw [newUARTPortIrq, if_neg (fun hc => hc.2 rfl),
        if_pos (Or.inl (And.intro hp rfl))]
    have hte := newUARTTypeErrs_unsupported typeStr htyp
    rw [NewUART, if_pos hkey, hmp, hpi, hte]
    rfl
  · intro hkey hmode htyp
    have hmp := newUARTModePick_unsupported modeStr hmode
    have hpi : newUARTPortIrq [] [] = ((0, 0), []) := by rfl
    have hte := newUARTTypeErrs_unsupported typeStr htyp
    rw [NewUART, if_pos hkey, hmp, hpi, hte]
    rfl
  · intro hkey
    rw [NewUART, if_neg]
    rw [hkey]
    exact Bool.false_ne_true

/-- Witness for C9's amended statement: `uart2` with a bad type, a bad
mode, a port value overflowing 64 bits (the `Sscanf` range error) and an
out-of-range IRQ yields all four errors in one combined error; a present
port with a missing IRQ yields the mismatch error accumulated with the
mode and type errors; the bad key `uart9` yields only the key error. -/
theorem c9_witness :
    NewUART (gs "uart2") (gs "16551") (gs "0x10000000000000000")
        (gs "99999999999999999999") (gs "pigeon") []
      = .error [.modeStrUnsupported (gs "pigeon"),
                .scanPortFailed (gs "0x10000000000000000"),
                .parseIrqFailed (gs "99999999999999999999"),
                .unsupportedType (gs "16551")]
    ∧ NewUART (gs "uart3") (gs "16551") (gs "0x2f8") [] (gs "pigeon") []
      = .error [.modeStrUnsupported (gs "pigeon"),
                .portIrqMismatch (gs "0x2f8") [],
                .unsupportedType (gs "16551")]
    ∧ NewUART (gs "uart9") (gs "16550A") [] [] (gs "file") []
      = .error [.unsupportedKey (gs "uart9")] :=
  ⟨(c9_amended_aggregation (gs "uart2") (gs "16551")
      (gs "0x10000000000000000") (gs "99999999999999999999") (gs "pigeon")
      []).1 (by decide) (by decide) (by decide) (by decide) (by decide)
      (by decide) (by decide),
   (c9_amended_aggregation (gs "uart3") (gs "16551") (gs "0x2f8") []
      (gs "pigeon") []).2.1 (by decide) (by decide) (by decide) (by decide),
   (c9_amended_aggregation (gs "uart9") (gs "16550A") [] [] (gs "file")
      []).2.2.2 (by decide)⟩

/-! ## Storage controller codec (`uart.go`, storage part) -/

/-- `StorageMedium` (source fields; `DriveType` is never set on the read
path). -/
structure StorageMedium where
  Port : Nat
  Device : Nat
  DriveType : GoStr
  Medium : GoStr
  UUID : GoStr
deriving DecidableEq, Repr

/-- `StorageController` (source fields). -/
structure StorageController where
  Name : GoStr
  SysBus : GoStr
  Ports : Nat
  Chipset : GoStr
  HostIOCache : Bool
  Bootable : Bool
  Devices : List StorageMedium
deriving DecidableEq, Repr

/-- Storage-controller parse errors. -/
inductive SCErr where
  | badPortCount (s : GoStr)
  | unsupportedCtrlType (t : GoStr)
deriving DecidableEq, Repr

/-- `strconv.Atoi`: optional sign, decimal digits, 64-bit signed range. -/
def goAtoi (s : GoStr) : Option Int :=
  match s with
  | '-' :: rest =>
    match parseDigits isDecDigit 10 rest with
    | none => none
    | some v => if v ≤ 2 ^ 63 then some (-(v : Int)) else none
  | '+' :: rest =>
    match parseDigits isDecDigit 10 rest with
    | none => none
    | some v => if v < 2 ^ 63 then some ((v : Nat) : Int) else none
  | _ =>
    match parseDigits isDecDigit 10 s with
    | none => none
    | some v => if v < 2 ^ 63 then some ((v : Nat) : Int) else none

/-- `vmInfogStrorageControllerTypeToBusAndChipset` (source `uart.go`,
name kept as spelled there): the fixed type-token table; the `unknown`
token maps bus and chipset to the literal token itself and is not an
error. -/
def vmInfogStrorageControllerTypeToBusAndChipset (scType : GoStr) :
    Except SCErr (GoStr × GoStr) :=
  if scType = gs "IntelAhci" then .ok (gs "sata", gs "IntelAHCI")
  else if scType = gs "LsiLogic" then .ok (gs "scsi", gs "LSILogic")
  else if scType = gs "BusLogic" then .ok (gs "scsi", gs "BusLogic")
  else if scType = gs "PIIX3" then .ok (gs "ide", gs "PIIX3")
  else if scType = gs "PIIX4" then .ok (gs "ide", gs "PIIX4")
  else if scType = gs "ICH6" then .ok (gs "ide", gs "ICH6")
  else if scType = gs "I82078" then .ok (gs "floppy", gs "I82078")
  else if scType = gs "LsiLogicSas" then .ok (gs "sas", gs "LSILogicSAS")
  else if scType = gs "USB" then .ok (gs "usb", gs "USB")
  else if scType = gs "NVMe" then .ok (gs "pcie", gs "NVMe")
  else if scType = gs "VirtioSCSI" then .ok (gs "virtio", gs "VirtIO")
  else if scType = gs "unknown" then .ok (scType, scType)
  else .error (.unsupportedCtrlType scType)

/-- `maxDevicePerPort`. -/
def maxDevicePerPort (bus : GoStr) : Nat :=
  if bus = gs "ide" ∨ bus = gs "floppy" then 2 else 1

/-- `findStorageMedia` (source `uart.go`): port-major, device-minor scan;
`none` mediums (no UUID, medium literally `none`) are skipped; the
function cannot fail. -/
def findStorageMedia (name : GoStr) (bus : GoStr) (portCount : Int)
    (m : PropMap) : List StorageMedium :=
  ((List.range portCount.toNat).map (fun p =>
    (List.range (maxDevicePerPort bus)).filterMap (fun d =>
      match alookup m (name ++ gs "-" ++ decStr p ++ gs "-" ++ decStr d) with
      | none => none
      | some medium =>
        if (alookup m (name ++ gs "-ImageUUID-" ++ decStr p ++ gs "-"
              ++ decStr d)).getD [] = ([] : GoStr)
            ∧ medium = gs "none" then
          none
        else
          some { Device := d, DriveType := [], Medium := medium, Port := p,
                 UUID := (alookup m (name ++ gs "-ImageUUID-" ++ decStr p
                   ++ gs "-" ++ decStr d)).getD [] }))).flatten

/-- `findStorageControllerByIndex` (source `uart.go`): port count first
(fatal if unparsable), then the type table (fatal on unknown vocabulary),
then media; host I/O cache always false on the read path. -/
def findStorageControllerByIndex (name iStr : GoStr) (m : PropMap) :
    Except SCErr StorageController :=
  match goAtoi ((alookup m (gs "storagecontrollerportcount" ++ iStr)).getD []) with
  | none => .error (.badPortCount
      ((alookup m (gs "storagecontrollerportcount" ++ iStr)).getD []))
  | some portCount =>
    match vmInfogStrorageControllerTypeToBusAndChipset
        ((alookup m (gs "storagecontrollertype" ++ iStr)).getD []) with
    | .error e => .error e
    | .ok bc =>
      .ok { Name := name, SysBus := bc.1, Chipset := bc.2,
            Ports := (portCount % (2 ^ 64 : Int)).toNat,
            HostIOCache := false,
            Bootable := (alookup m (gs "storagecontrollerbootable" ++ iStr)).getD []
              = gs "on",
            Devices := findStorageMedia name bc.1 portCount m }

/-- The index loop of `NewStorageControllersFromProps`. -/
def scBuild (m : PropMap) : List Nat → Except SCErr (List StorageController)
  | [] => .ok []
  | i :: rest =>
    match alookup m (gs "storagecontrollername" ++ decStr i) with
    | none => scBuild m rest
    | some name =>
      match findStorageControllerByIndex name (decStr i) m with
      | .error e => .error e
      | .ok sc =>
        match scBuild m rest with
        | .error e => .error e
        | .ok ctrls => .ok (sc :: ctrls)

/-- `NewStorageControllersFromProps` (source `uart.go`): indices 0..7, a
controller exists iff its `storagecontrollername<i>` key is present. -/
def NewStorageControllersFromProps (m : PropMap) :
    Except SCErr (List StorageController) :=
  scBuild m [0, 1, 2, 3, 4, 5, 6, 7]

theorem findStorageControllerByIndex_unknown (m : PropMap) (iStr name : GoStr)
    (pc : Int)
    (htype : alookup m (gs "storagecontrollertype" ++ iStr)
      = some (gs "unknown"))
    (hport : goAtoi ((alookup m (gs "storagecontrollerportcount" ++ iStr)).getD [])
      = some pc) :
    findStorageControllerByIndex name iStr m
      = .ok { Name := name, SysBus := gs "unknown", Chipset := gs "unknown",
              Ports := (pc % (2 ^ 64 : Int)).toNat,
              HostIOCache := false,
              Bootable := (alookup m (gs "storagecontrollerbootable" ++ iStr)).getD []
                = gs "on",
              Devices := findStorageMedia name (gs "unknown") pc m } := by
  rw [findStorageControllerByIndex]
  simp only [hport, htype, Option.getD_some]
  rw [show vmInfogStrorageControllerTypeToBusAndChipset (gs "unknown")
    = .ok (gs "unknown", gs "unknown") from rfl]

theorem scBuild_total (m : PropMap) (idxs : List Nat)
    (hall : ∀ j ∈ idxs, ∀ nm,
      alookup m (gs "storagecontrollername" ++ decStr j) = some nm →
      ∃ sc, findStorageControllerByIndex nm (decStr j) m = .ok sc) :
    ∃ ctrls, scBuild m idxs = .ok ctrls
      ∧ ∀ i ∈ idxs, ∀ nm sci,
          alookup m (gs "storagecontrollername" ++ decStr i) = some nm →
          findStorageControllerByIndex nm (decStr i) m = .ok sci →
          sci ∈ ctrls := by
  induction idxs with
  | nil =>
    refine ⟨[], rfl, ?_⟩
    intro i hi
    exact absurd hi (List.not_mem_nil i)
  | cons j rest ih =>
    obtain ⟨cs, hcs, hmem⟩ := ih (fun j2 hj2 => hall j2 (List.mem_cons_of_mem j hj2))
    cases hn : alookup m (gs "storagecontrollername" ++ decStr j) with
    | none =>
      refine ⟨cs, ?_, ?_⟩
      · rw [scBuild]
        simp only [hn]
        exact hcs
      · intro i hi nm sci hnm hsci
        rcases List.mem_cons.1 hi with rfl | hi2
        · rw [hn] at hnm
          exact Option.noConfusion hnm
        · exact hmem i hi2 nm sci hnm hsci
    | some nm0 =>
      obtain ⟨sc0, hsc0⟩ := hall j (List.mem_cons_self j rest) nm0 hn
      refine ⟨sc0 :: cs, ?_, ?_⟩
      · rw [scBuild]
        simp only [hn, hsc0, hcs]
      · intro i hi nm sci hnm hsci
        rcases List.mem_cons.1 hi with rfl | hi2
        · rw [hn] at hnm
          injection hnm with hnm2
          subst hnm2
          rw [hsc0] at hsci
          injection hsci with hsci2
          subst hsci2
          exact List.mem_cons_self _ _
        · exact List.mem_cons_of_mem _ (hmem i hi2 nm sci hnm hsci)

/-- **C7.** A controller whose reported type token is the literal
`unknown` (with a parsable port count) is decoded as data, not rejected:
parsing succeeds — provided every other present controller parses — and
the decoded controller has system bus and chipset both equal to the
literal `unknown`. -/
theorem c7_unknown_controller_type_is_data (m : PropMap) (i : Nat)
    (name : GoStr) (pc : Int)
    (hi : i < 8)
    (hname : alookup m (gs "storagecontrollername" ++ decStr i) = some name)
    (htype : alookup m (gs "storagecontrollertype" ++ decStr i)
      = some (gs "unknown"))
    (hport : goAtoi ((alookup m (gs "storagecontrollerportcount" ++ decStr i)).getD [])
      = some pc)
    (hother : ∀ j, j < 8 → j ≠ i → ∀ nm,
      alookup m (gs "storagecontrollername" ++ decStr j) = some nm →
      ∃ sc, findStorageControllerByIndex nm (decStr j) m = .ok sc) :
    ∃ ctrls, NewStorageControllersFromProps m = .ok ctrls
      ∧ ∃ sc ∈ ctrls, sc.Name = name ∧ sc.SysBus = gs "unknown"
        ∧ sc.Chipset = gs "unknown" := by
  have hfind := findStorageControllerByIndex_unknown m (decStr i) name pc htype hport
  have hall : ∀ j ∈ [0, 1, 2, 3, 4, 5, 6, 7], ∀ nm,
      alookup m (gs "storagecontrollername" ++ decStr j) = some nm →
      ∃ sc, findStorageControllerByIndex nm (decStr j) m = .ok sc := by
    intro j hj nm hnm
    by_cases hji : j = i
    · subst hji
      rw [hname] at hnm
      injection hnm with hnm2
      subst hnm2
      exact ⟨_, hfind⟩
    · have hj8 : j < 8 := by
        simp only [List.mem_cons, List.not_mem_nil, or_false] at hj
        omega
      exact hother j hj8 hji nm hnm
  obtain ⟨ctrls, hok, hmem⟩ := scBuild_total m [0, 1, 2, 3, 4, 5, 6, 7] hall
  refine ⟨ctrls, hok, ?_⟩
  have hi_mem : i ∈ [0, 1, 2, 3, 4, 5, 6, 7] := by
    simp only [List.mem_cons, List.not_mem_nil, or_false]
    omega
  exact ⟨_, hmem i hi_mem name _ hname hfind, rfl, rfl, rfl⟩

/-- Witness for C7 (the spec scenario): `storagecontrollertype5="unknown"`
with name `NVMe` and port count 1 decodes to bus `unknown`, chipset
`unknown`, with no parse error. -/
theorem c7_witness :
    ∃ ctrls, NewStorageControllersFromProps
        [(gs "storagecontrollername5", gs "NVMe"),
         (gs "storagecontrollertype5", gs "unknown"),
         (gs "storagecontrollerportcount5", gs "1")] = .ok ctrls
      ∧ ∃ sc ∈ ctrls, sc.Name = gs "NVMe" ∧ sc.SysBus = gs "unknown"
        ∧ sc.Chipset = gs "unknown" := by
  apply c7_unknown_controller_type_is_data _ 5 (gs "NVMe") 1
  · omega
  · rfl
  · rfl
  · rfl
  · intro j hj hji nm hnm
    interval_cases j
    · exact Option.noConfusion hnm
    · exact Option.noConfusion hnm
    · exact Option.noConfusion hnm
    · exact Option.noConfusion hnm
    · exact Option.noConfusion hnm
    · exact absurd rfl hji
    · exact Option.noConfusion hnm
    · exact Option.noConfusion hnm

/-! ## Flag bitmask and `Machine.Modify` feature toggles -/

/-- `Flag` is a Go `int` used as a bitmask; modelled as the 64-bit pattern. -/
abbrev VBFlag := Nat

/-- `bool2string`: `"on"`/`"off"`. -/
def bool2string (b : Bool) : GoStr := if b then gs "on" else gs "off"

/-- `VBFlag.Get`: `"on"` iff `f & o == o`. -/
def VBFlag.Get (f o : VBFlag) : GoStr := bool2string (f &&& o == o)

/-- The flag constants (`1 << iota`). -/
def ACPI : VBFlag := 1 <<< 0
def IOAPIC : VBFlag := 1 <<< 1
def RTCUSEUTC : VBFlag := 1 <<< 2
def CPUHOTPLUG : VBFlag := 1 <<< 3
def PAE : VBFlag := 1 <<< 4
def LONGMODE : VBFlag := 1 <<< 5
def SYNTHCPU : VBFlag := 1 <<< 6
def HPET : VBFlag := 1 <<< 7
def HWVIRTEX : VBFlag := 1 <<< 8
def TRIPLEFAULTRESET : VBFlag := 1 <<< 9
def NESTEDPAGING : VBFlag := 1 <<< 10
def LARGEPAGES : VBFlag := 1 <<< 11
def VTXVPID : VBFlag := 1 <<< 12
def VTXUX : VBFlag := 1 <<< 13
def ACCELERATE3D : VBFlag := 1 <<< 14
def NESTED_HW_VIRT : VBFlag := 1 <<< 15
def X2APIC : VBFlag := 1 <<< 16

/-- The feature-toggle key/value pairs appended by `Machine.Modify`
(source lines `cmdArgs.Append("--acpi", m.VBFlag.Get(ACPI))` … ; `SYNTHCPU`
is commented out in the source and `X2APIC` is not appended). -/
def modifyFeatureToggleArgs (fl : VBFlag) : List (GoStr × GoStr) :=
  [(gs "--acpi", fl.Get ACPI),
   (gs "--ioapic", fl.Get IOAPIC),
   (gs "--rtcuseutc", fl.Get RTCUSEUTC),
   (gs "--cpuhotplug", fl.Get CPUHOTPLUG),
   (gs "--pae", fl.Get PAE),
   (gs "--longmode", fl.Get LONGMODE),
   (gs "--hpet", fl.Get HPET),
   (gs "--hwvirtex", fl.Get HWVIRTEX),
   (gs "--triplefaultreset", fl.Get TRIPLEFAULTRESET),
   (gs "--nestedpaging", fl.Get NESTEDPAGING),
   (gs "--largepages", fl.Get LARGEPAGES),
   (gs "--vtxvpid", fl.Get VTXVPID),
   (gs "--vtxux", fl.Get VTXUX),
   (gs "--accelerate3d", fl.Get ACCELERATE3D),
   (gs "--nested-hw-virt", fl.Get NESTED_HW_VIRT)]

theorem bool2string_on_or_off (b : Bool) :
    bool2string b = gs "on" ∨ bool2string b = gs "off" := by
  cases b
  · right; rfl
  · left; rfl

/-- **C10.** `VBFlag.Get f o` is `"on"` exactly when every bit of `o` is set
in `f` (bitwise, over the 64-bit patterns), and `"off"` otherwise; hence
every feature-toggle argument appended by `Machine.Modify` has value
`"on"` or `"off"`. -/
theorem c10_flag_get_on_off (f o : VBFlag) (hf : f < 2 ^ 64) (ho : o < 2 ^ 64) :
    (VBFlag.Get f o = gs "on"
      ↔ ∀ i, i < 64 → o.testBit i = true → f.testBit i = true)
    ∧ (∀ kv ∈ modifyFeatureToggleArgs f, kv.2 = gs "on" ∨ kv.2 = gs "off") := by
  constructor
  · rw [VBFlag.Get, bool2string]
    constructor
    · intro hon i _ hbit
      have hb : (f &&& o == o) = true := by
        by_contra hb
        rw [if_neg hb] at hon
        exact absurd hon (by decide)
      have heq : f &&& o = o := by
        exact beq_iff_eq.1 hb
      have := congrArg (fun n => n.testBit i) heq
      simp only [Nat.testBit_and] at this
      rw [hbit] at this
      simpa using this
    · intro hbits
      have heq : f &&& o = o := by
        apply Nat.eq_of_testBit_eq
        intro i
        rw [Nat.testBit_and]
        by_cases hi : i < 64
        · cases hbo : o.testBit i
          · simp
          · rw [hbits i hi hbo]
            rfl
        · have hbo : o.testBit i = false := by
            apply Nat.testBit_lt_two_pow
            calc o < 2 ^ 64 := ho
              _ ≤ 2 ^ i := Nat.pow_le_pow_right (by omega) (by omega)
          simp [hbo]
      rw [if_pos (by simp [heq])]
  · intro kv hkv
    simp only [modifyFeatureToggleArgs, List.mem_cons, List.not_mem_nil,
      or_false] at hkv
    rcases hkv with rfl | rfl | rfl | rfl | rfl | rfl | rfl | rfl | rfl | rfl
      | rfl | rfl | rfl | rfl | rfl <;> exact bool2string_on_or_off _

/-- Witness for C10: bit 0 of 3 covers 1 (`on`); the `--acpi` toggle of
flag value 4 is `on` or `off`. -/
theorem c10_witness :
    VBFlag.Get 3 1 = gs "on"
    ∧ ((gs "--acpi", VBFlag.Get 4 ACPI).2 = gs "on"
        ∨ (gs "--acpi", VBFlag.Get 4 ACPI).2 = gs "off") :=
  ⟨((c10_flag_get_on_off 3 1 (by decide) (by decide)).1).mpr (by decide),
   (c10_flag_get_on_off 4 1 (by decide) (by decide)).2
     (gs "--acpi", VBFlag.Get 4 ACPI) (by decide)⟩
